import Mathlib

/-!
# Users REST API: validation, repository and request handlers

A shallow embedding of `backend/models/User.js`,
`backend/controllers/userController.js` and
`backend/middleware/errorHandler.js`, with the properties of the
specification stated and settled over it.

JavaScript strings are embedded as Lean strings (sequences of code points).
The whitespace characters, `@` and `.` all lie in the basic plane, and a
character outside it is two code units that are each neither whitespace nor
`@`, so the regular expression and `trim` behave the same on code points as
on code units. `toLowerCase` is the Unicode default lowercase conversion, with
the case mappings and the `Cased` and `Case_Ignorable` properties of version 14.0
of the Unicode Character Database.
-/

namespace UserApi

/-! ## JavaScript values -/

/-- A JavaScript value as a JSON request body or a table row can carry it.
`obj` stands for any object or array: truthy, and not a string. `num` carries an
integer; a fractional number behaves here as a non-zero one (truthy, not a
string). -/
inductive JsVal
  | undefined
  | null
  | bool (b : Bool)
  | num (n : Int)
  | str (s : String)
  | obj
  deriving DecidableEq, Repr

/-- Truthiness (`ToBoolean`): what `!v`, `v || w`, `v && w` and `if (v)` test. -/
def JsVal.truthy : JsVal → Bool
  | .undefined => false
  | .null => false
  | .bool b => b
  | .num n => n != 0
  | .str s => !s.data.isEmpty
  | .obj => true

/-- The test `typeof v === 'string'`. -/
def JsVal.isString : JsVal → Bool
  | .str _ => true
  | _ => false

/-- The string held by a value known to be a string (read only behind an
`isString` test). -/
def JsVal.asString : JsVal → String
  | .str s => s
  | _ => ""

/-- The expression `a || b`. -/
def JsVal.or (a b : JsVal) : JsVal := if a.truthy then a else b

/-- The expression `a !== b`, for a value `a` of the request body and a value `b`
of a table row (two objects from different places are never identical). -/
def JsVal.strictNe : JsVal → JsVal → Bool
  | .obj, _ => true
  | _, .obj => true
  | a, b => a != b

/-! ## Strings: whitespace, `trim`, `toLowerCase` -/

/-- The characters `\s` matches and `trim` strips: ECMAScript WhiteSpace and
LineTerminator. -/
def isWhiteSpace (c : Char) : Bool :=
  let n := c.toNat
  n == 0x09 || n == 0x0A || n == 0x0B || n == 0x0C || n == 0x0D || n == 0x20 ||
  n == 0xA0 || n == 0x1680 || (0x2000 ≤ n && n ≤ 0x200A) || n == 0x2028 ||
  n == 0x2029 || n == 0x202F || n == 0x205F || n == 0x3000 || n == 0xFEFF

/-- Strip leading and trailing whitespace from a list of characters. -/
def trimChars (l : List Char) : List Char :=
  ((l.dropWhile isWhiteSpace).reverse.dropWhile isWhiteSpace).reverse

/-- The method `String.prototype.trim`. -/
def trim (s : String) : String := ⟨trimChars s.data⟩

/-- A run of the simple lowercase mapping of the Unicode Character Database
(version 14.0, `UnicodeData.txt`): the code points `lo`, `lo + step`, ... up to
`hi` map to `target`, `target + step`, ... -/
structure CaseRun where
  lo : Nat
  hi : Nat
  step : Nat
  target : Nat
  deriving DecidableEq, Repr

/-- Whether the run maps the code point `n`. -/
def CaseRun.covers (r : CaseRun) (n : Nat) : Bool :=
  Nat.ble r.lo n && Nat.ble n r.hi && Nat.beq ((n - r.lo) % r.step) 0

/-- The simple lowercase mapping of the Unicode Character Database, version 14.0:
every code point with a lowercase mapping, in runs. -/
def lowerRuns : List CaseRun := [
  CaseRun.mk 0x41 0x5A 1 0x61, CaseRun.mk 0xC0 0xD6 1 0xE0, CaseRun.mk 0xD8 0xDE 1 0xF8,
  CaseRun.mk 0x100 0x12E 2 0x101, CaseRun.mk 0x130 0x130 1 0x69, CaseRun.mk 0x132 0x136 2 0x133,
  CaseRun.mk 0x139 0x147 2 0x13A, CaseRun.mk 0x14A 0x176 2 0x14B, CaseRun.mk 0x178 0x178 1 0xFF,
  CaseRun.mk 0x179 0x17D 2 0x17A, CaseRun.mk 0x181 0x181 1 0x253, CaseRun.mk 0x182 0x184 2 0x183,
  CaseRun.mk 0x186 0x186 1 0x254, CaseRun.mk 0x187 0x187 1 0x188, CaseRun.mk 0x189 0x18A 1 0x256,
  CaseRun.mk 0x18B 0x18B 1 0x18C, CaseRun.mk 0x18E 0x18E 1 0x1DD, CaseRun.mk 0x18F 0x18F 1 0x259,
  CaseRun.mk 0x190 0x190 1 0x25B, CaseRun.mk 0x191 0x191 1 0x192, CaseRun.mk 0x193 0x193 1 0x260,
  CaseRun.mk 0x194 0x194 1 0x263, CaseRun.mk 0x196 0x196 1 0x269, CaseRun.mk 0x197 0x197 1 0x268,
  CaseRun.mk 0x198 0x198 1 0x199, CaseRun.mk 0x19C 0x19C 1 0x26F, CaseRun.mk 0x19D 0x19D 1 0x272,
  CaseRun.mk 0x19F 0x19F 1 0x275, CaseRun.mk 0x1A0 0x1A4 2 0x1A1, CaseRun.mk 0x1A6 0x1A6 1 0x280,
  CaseRun.mk 0x1A7 0x1A7 1 0x1A8, CaseRun.mk 0x1A9 0x1A9 1 0x283, CaseRun.mk 0x1AC 0x1AC 1 0x1AD,
  CaseRun.mk 0x1AE 0x1AE 1 0x288, CaseRun.mk 0x1AF 0x1AF 1 0x1B0, CaseRun.mk 0x1B1 0x1B2 1 0x28A,
  CaseRun.mk 0x1B3 0x1B5 2 0x1B4, CaseRun.mk 0x1B7 0x1B7 1 0x292, CaseRun.mk 0x1B8 0x1B8 1 0x1B9,
  CaseRun.mk 0x1BC 0x1BC 1 0x1BD, CaseRun.mk 0x1C4 0x1C4 1 0x1C6, CaseRun.mk 0x1C5 0x1C5 1 0x1C6,
  CaseRun.mk 0x1C7 0x1C7 1 0x1C9, CaseRun.mk 0x1C8 0x1C8 1 0x1C9, CaseRun.mk 0x1CA 0x1CA 1 0x1CC,
  CaseRun.mk 0x1CB 0x1DB 2 0x1CC, CaseRun.mk 0x1DE 0x1EE 2 0x1DF, CaseRun.mk 0x1F1 0x1F1 1 0x1F3,
  CaseRun.mk 0x1F2 0x1F4 2 0x1F3, CaseRun.mk 0x1F6 0x1F6 1 0x195, CaseRun.mk 0x1F7 0x1F7 1 0x1BF,
  CaseRun.mk 0x1F8 0x21E 2 0x1F9, CaseRun.mk 0x220 0x220 1 0x19E, CaseRun.mk 0x222 0x232 2 0x223,
  CaseRun.mk 0x23A 0x23A 1 0x2C65, CaseRun.mk 0x23B 0x23B 1 0x23C, CaseRun.mk 0x23D 0x23D 1 0x19A,
  CaseRun.mk 0x23E 0x23E 1 0x2C66, CaseRun.mk 0x241 0x241 1 0x242, CaseRun.mk 0x243 0x243 1 0x180,
  CaseRun.mk 0x244 0x244 1 0x289, CaseRun.mk 0x245 0x245 1 0x28C, CaseRun.mk 0x246 0x24E 2 0x247,
  CaseRun.mk 0x370 0x372 2 0x371, CaseRun.mk 0x376 0x376 1 0x377, CaseRun.mk 0x37F 0x37F 1 0x3F3,
  CaseRun.mk 0x386 0x386 1 0x3AC, CaseRun.mk 0x388 0x38A 1 0x3AD, CaseRun.mk 0x38C 0x38C 1 0x3CC,
  CaseRun.mk 0x38E 0x38F 1 0x3CD, CaseRun.mk 0x391 0x3A1 1 0x3B1, CaseRun.mk 0x3A3 0x3AB 1 0x3C3,
  CaseRun.mk 0x3CF 0x3CF 1 0x3D7, CaseRun.mk 0x3D8 0x3EE 2 0x3D9, CaseRun.mk 0x3F4 0x3F4 1 0x3B8,
  CaseRun.mk 0x3F7 0x3F7 1 0x3F8, CaseRun.mk 0x3F9 0x3F9 1 0x3F2, CaseRun.mk 0x3FA 0x3FA 1 0x3FB,
  CaseRun.mk 0x3FD 0x3FF 1 0x37B, CaseRun.mk 0x400 0x40F 1 0x450, CaseRun.mk 0x410 0x42F 1 0x430,
  CaseRun.mk 0x460 0x480 2 0x461, CaseRun.mk 0x48A 0x4BE 2 0x48B, CaseRun.mk 0x4C0 0x4C0 1 0x4CF,
  CaseRun.mk 0x4C1 0x4CD 2 0x4C2, CaseRun.mk 0x4D0 0x52E 2 0x4D1, CaseRun.mk 0x531 0x556 1 0x561,
  CaseRun.mk 0x10A0 0x10C5 1 0x2D00, CaseRun.mk 0x10C7 0x10C7 1 0x2D27,
  CaseRun.mk 0x10CD 0x10CD 1 0x2D2D, CaseRun.mk 0x13A0 0x13EF 1 0xAB70,
  CaseRun.mk 0x13F0 0x13F5 1 0x13F8, CaseRun.mk 0x1C90 0x1CBA 1 0x10D0,
  CaseRun.mk 0x1CBD 0x1CBF 1 0x10FD, CaseRun.mk 0x1E00 0x1E94 2 0x1E01,
  CaseRun.mk 0x1E9E 0x1E9E 1 0xDF, CaseRun.mk 0x1EA0 0x1EFE 2 0x1EA1,
  CaseRun.mk 0x1F08 0x1F0F 1 0x1F00, CaseRun.mk 0x1F18 0x1F1D 1 0x1F10,
  CaseRun.mk 0x1F28 0x1F2F 1 0x1F20, CaseRun.mk 0x1F38 0x1F3F 1 0x1F30,
  CaseRun.mk 0x1F48 0x1F4D 1 0x1F40, CaseRun.mk 0x1F59 0x1F5F 2 0x1F51,
  CaseRun.mk 0x1F68 0x1F6F 1 0x1F60, CaseRun.mk 0x1F88 0x1F8F 1 0x1F80,
  CaseRun.mk 0x1F98 0x1F9F 1 0x1F90, CaseRun.mk 0x1FA8 0x1FAF 1 0x1FA0,
  CaseRun.mk 0x1FB8 0x1FB9 1 0x1FB0, CaseRun.mk 0x1FBA 0x1FBB 1 0x1F70,
  CaseRun.mk 0x1FBC 0x1FBC 1 0x1FB3, CaseRun.mk 0x1FC8 0x1FCB 1 0x1F72,
  CaseRun.mk 0x1FCC 0x1FCC 1 0x1FC3, CaseRun.mk 0x1FD8 0x1FD9 1 0x1FD0,
  CaseRun.mk 0x1FDA 0x1FDB 1 0x1F76, CaseRun.mk 0x1FE8 0x1FE9 1 0x1FE0,
  CaseRun.mk 0x1FEA 0x1FEB 1 0x1F7A, CaseRun.mk 0x1FEC 0x1FEC 1 0x1FE5,
  CaseRun.mk 0x1FF8 0x1FF9 1 0x1F78, CaseRun.mk 0x1FFA 0x1FFB 1 0x1F7C,
  CaseRun.mk 0x1FFC 0x1FFC 1 0x1FF3, CaseRun.mk 0x2126 0x2126 1 0x3C9,
  CaseRun.mk 0x212A 0x212A 1 0x6B, CaseRun.mk 0x212B 0x212B 1 0xE5,
  CaseRun.mk 0x2132 0x2132 1 0x214E, CaseRun.mk 0x2160 0x216F 1 0x2170,
  CaseRun.mk 0x2183 0x2183 1 0x2184, CaseRun.mk 0x24B6 0x24CF 1 0x24D0,
  CaseRun.mk 0x2C00 0x2C2F 1 0x2C30, CaseRun.mk 0x2C60 0x2C60 1 0x2C61,
  CaseRun.mk 0x2C62 0x2C62 1 0x26B, CaseRun.mk 0x2C63 0x2C63 1 0x1D7D,
  CaseRun.mk 0x2C64 0x2C64 1 0x27D, CaseRun.mk 0x2C67 0x2C6B 2 0x2C68,
  CaseRun.mk 0x2C6D 0x2C6D 1 0x251, CaseRun.mk 0x2C6E 0x2C6E 1 0x271,
  CaseRun.mk 0x2C6F 0x2C6F 1 0x250, CaseRun.mk 0x2C70 0x2C70 1 0x252,
  CaseRun.mk 0x2C72 0x2C72 1 0x2C73, CaseRun.mk 0x2C75 0x2C75 1 0x2C76,
  CaseRun.mk 0x2C7E 0x2C7F 1 0x23F, CaseRun.mk 0x2C80 0x2CE2 2 0x2C81,
  CaseRun.mk 0x2CEB 0x2CED 2 0x2CEC, CaseRun.mk 0x2CF2 0x2CF2 1 0x2CF3,
  CaseRun.mk 0xA640 0xA66C 2 0xA641, CaseRun.mk 0xA680 0xA69A 2 0xA681,
  CaseRun.mk 0xA722 0xA72E 2 0xA723, CaseRun.mk 0xA732 0xA76E 2 0xA733,
  CaseRun.mk 0xA779 0xA77B 2 0xA77A, CaseRun.mk 0xA77D 0xA77D 1 0x1D79,
  CaseRun.mk 0xA77E 0xA786 2 0xA77F, CaseRun.mk 0xA78B 0xA78B 1 0xA78C,
  CaseRun.mk 0xA78D 0xA78D 1 0x265, CaseRun.mk 0xA790 0xA792 2 0xA791,
  CaseRun.mk 0xA796 0xA7A8 2 0xA797, CaseRun.mk 0xA7AA 0xA7AA 1 0x266,
  CaseRun.mk 0xA7AB 0xA7AB 1 0x25C, CaseRun.mk 0xA7AC 0xA7AC 1 0x261,
  CaseRun.mk 0xA7AD 0xA7AD 1 0x26C, CaseRun.mk 0xA7AE 0xA7AE 1 0x26A,
  CaseRun.mk 0xA7B0 0xA7B0 1 0x29E, CaseRun.mk 0xA7B1 0xA7B1 1 0x287,
  CaseRun.mk 0xA7B2 0xA7B2 1 0x29D, CaseRun.mk 0xA7B3 0xA7B3 1 0xAB53,
  CaseRun.mk 0xA7B4 0xA7C2 2 0xA7B5, CaseRun.mk 0xA7C4 0xA7C4 1 0xA794,
  CaseRun.mk 0xA7C5 0xA7C5 1 0x282, CaseRun.mk 0xA7C6 0xA7C6 1 0x1D8E,
  CaseRun.mk 0xA7C7 0xA7C9 2 0xA7C8, CaseRun.mk 0xA7D0 0xA7D0 1 0xA7D1,
  CaseRun.mk 0xA7D6 0xA7D8 2 0xA7D7, CaseRun.mk 0xA7F5 0xA7F5 1 0xA7F6,
  CaseRun.mk 0xFF21 0xFF3A 1 0xFF41, CaseRun.mk 0x10400 0x10427 1 0x10428,
  CaseRun.mk 0x104B0 0x104D3 1 0x104D8, CaseRun.mk 0x10570 0x10594 2 0x10597,
  CaseRun.mk 0x10571 0x10579 2 0x10598, CaseRun.mk 0x1057D 0x10589 2 0x105A4,
  CaseRun.mk 0x1058D 0x10591 2 0x105B4, CaseRun.mk 0x10595 0x10595 1 0x105BC,
  CaseRun.mk 0x10C80 0x10CB2 1 0x10CC0, CaseRun.mk 0x118A0 0x118BF 1 0x118C0,
  CaseRun.mk 0x16E40 0x16E5F 1 0x16E60, CaseRun.mk 0x1E900 0x1E921 1 0x1E922]

/-- The simple lowercase mapping of one code point. -/
def lowerCode (n : Nat) : Nat :=
  match lowerRuns.find? (fun r => r.covers n) with
  | some r => r.target + (n - r.lo)
  | none => n

/-- The simple lowercase mapping of one character. -/
def simpleLower (c : Char) : Char := Char.ofNat (lowerCode c.toNat)

/-- The code points with the property `Case_Ignorable` (Unicode 14.0), as ranges. -/
def caseIgnorableRanges : List (Nat × Nat) := [
  (0x27, 0x27), (0x2E, 0x2E), (0x3A, 0x3A), (0x5E, 0x5E), (0x60, 0x60), (0xA8, 0xA8), (0xAD, 0xAD),
  (0xAF, 0xAF), (0xB4, 0xB4), (0xB7, 0xB8), (0x2B0, 0x36F), (0x374, 0x375), (0x37A, 0x37A),
  (0x384, 0x385), (0x387, 0x387), (0x483, 0x489), (0x559, 0x559), (0x55F, 0x55F), (0x591, 0x5BD),
  (0x5BF, 0x5BF), (0x5C1, 0x5C2), (0x5C4, 0x5C5), (0x5C7, 0x5C7), (0x5F4, 0x5F4), (0x600, 0x605),
  (0x610, 0x61A), (0x61C, 0x61C), (0x640, 0x640), (0x64B, 0x65F), (0x670, 0x670), (0x6D6, 0x6DD),
  (0x6DF, 0x6E8), (0x6EA, 0x6ED), (0x70F, 0x70F), (0x711, 0x711), (0x730, 0x74A), (0x7A6, 0x7B0),
  (0x7EB, 0x7F5), (0x7FA, 0x7FA), (0x7FD, 0x7FD), (0x816, 0x82D), (0x859, 0x85B), (0x888, 0x888),
  (0x890, 0x891), (0x898, 0x89F), (0x8C9, 0x902), (0x93A, 0x93A), (0x93C, 0x93C), (0x941, 0x948),
  (0x94D, 0x94D), (0x951, 0x957), (0x962, 0x963), (0x971, 0x971), (0x981, 0x981), (0x9BC, 0x9BC),
  (0x9C1, 0x9C4), (0x9CD, 0x9CD), (0x9E2, 0x9E3), (0x9FE, 0x9FE), (0xA01, 0xA02), (0xA3C, 0xA3C),
  (0xA41, 0xA42), (0xA47, 0xA48), (0xA4B, 0xA4D), (0xA51, 0xA51), (0xA70, 0xA71), (0xA75, 0xA75),
  (0xA81, 0xA82), (0xABC, 0xABC), (0xAC1, 0xAC5), (0xAC7, 0xAC8), (0xACD, 0xACD), (0xAE2, 0xAE3),
  (0xAFA, 0xAFF), (0xB01, 0xB01), (0xB3C, 0xB3C), (0xB3F, 0xB3F), (0xB41, 0xB44), (0xB4D, 0xB4D),
  (0xB55, 0xB56), (0xB62, 0xB63), (0xB82, 0xB82), (0xBC0, 0xBC0), (0xBCD, 0xBCD), (0xC00, 0xC00),
  (0xC04, 0xC04), (0xC3C, 0xC3C), (0xC3E, 0xC40), (0xC46, 0xC48), (0xC4A, 0xC4D), (0xC55, 0xC56),
  (0xC62, 0xC63), (0xC81, 0xC81), (0xCBC, 0xCBC), (0xCBF, 0xCBF), (0xCC6, 0xCC6), (0xCCC, 0xCCD),
  (0xCE2, 0xCE3), (0xD00, 0xD01), (0xD3B, 0xD3C), (0xD41, 0xD44), (0xD4D, 0xD4D), (0xD62, 0xD63),
  (0xD81, 0xD81), (0xDCA, 0xDCA), (0xDD2, 0xDD4), (0xDD6, 0xDD6), (0xE31, 0xE31), (0xE34, 0xE3A),
  (0xE46, 0xE4E), (0xEB1, 0xEB1), (0xEB4, 0xEBC), (0xEC6, 0xEC6), (0xEC8, 0xECD), (0xF18, 0xF19),
  (0xF35, 0xF35), (0xF37, 0xF37), (0xF39, 0xF39), (0xF71, 0xF7E), (0xF80, 0xF84), (0xF86, 0xF87),
  (0xF8D, 0xF97), (0xF99, 0xFBC), (0xFC6, 0xFC6), (0x102D, 0x1030), (0x1032, 0x1037),
  (0x1039, 0x103A), (0x103D, 0x103E), (0x1058, 0x1059), (0x105E, 0x1060), (0x1071, 0x1074),
  (0x1082, 0x1082), (0x1085, 0x1086), (0x108D, 0x108D), (0x109D, 0x109D), (0x10FC, 0x10FC),
  (0x135D, 0x135F), (0x1712, 0x1714), (0x1732, 0x1733), (0x1752, 0x1753), (0x1772, 0x1773),
  (0x17B4, 0x17B5), (0x17B7, 0x17BD), (0x17C6, 0x17C6), (0x17C9, 0x17D3), (0x17D7, 0x17D7),
  (0x17DD, 0x17DD), (0x180B, 0x180F), (0x1843, 0x1843), (0x1885, 0x1886), (0x18A9, 0x18A9),
  (0x1920, 0x1922), (0x1927, 0x1928), (0x1932, 0x1932), (0x1939, 0x193B), (0x1A17, 0x1A18),
  (0x1A1B, 0x1A1B), (0x1A56, 0x1A56), (0x1A58, 0x1A5E), (0x1A60, 0x1A60), (0x1A62, 0x1A62),
  (0x1A65, 0x1A6C), (0x1A73, 0x1A7C), (0x1A7F, 0x1A7F), (0x1AA7, 0x1AA7), (0x1AB0, 0x1ACE),
  (0x1B00, 0x1B03), (0x1B34, 0x1B34), (0x1B36, 0x1B3A), (0x1B3C, 0x1B3C), (0x1B42, 0x1B42),
  (0x1B6B, 0x1B73), (0x1B80, 0x1B81), (0x1BA2, 0x1BA5), (0x1BA8, 0x1BA9), (0x1BAB, 0x1BAD),
  (0x1BE6, 0x1BE6), (0x1BE8, 0x1BE9), (0x1BED, 0x1BED), (0x1BEF, 0x1BF1), (0x1C2C, 0x1C33),
  (0x1C36, 0x1C37), (0x1C78, 0x1C7D), (0x1CD0, 0x1CD2), (0x1CD4, 0x1CE0), (0x1CE2, 0x1CE8),
  (0x1CED, 0x1CED), (0x1CF4, 0x1CF4), (0x1CF8, 0x1CF9), (0x1D2C, 0x1D6A), (0x1D78, 0x1D78),
  (0x1D9B, 0x1DFF), (0x1FBD, 0x1FBD), (0x1FBF, 0x1FC1), (0x1FCD, 0x1FCF), (0x1FDD, 0x1FDF),
  (0x1FED, 0x1FEF), (0x1FFD, 0x1FFE), (0x200B, 0x200F), (0x2018, 0x2019), (0x2024, 0x2024),
  (0x2027, 0x2027), (0x202A, 0x202E), (0x2060, 0x2064), (0x2066, 0x206F), (0x2071, 0x2071),
  (0x207F, 0x207F), (0x2090, 0x209C), (0x20D0, 0x20F0), (0x2C7C, 0x2C7D), (0x2CEF, 0x2CF1),
  (0x2D6F, 0x2D6F), (0x2D7F, 0x2D7F), (0x2DE0, 0x2DFF), (0x2E2F, 0x2E2F), (0x3005, 0x3005),
  (0x302A, 0x302D), (0x3031, 0x3035), (0x303B, 0x303B), (0x3099, 0x309E), (0x30FC, 0x30FE),
  (0xA015, 0xA015), (0xA4F8, 0xA4FD), (0xA60C, 0xA60C), (0xA66F, 0xA672), (0xA674, 0xA67D),
  (0xA67F, 0xA67F), (0xA69C, 0xA69F), (0xA6F0, 0xA6F1), (0xA700, 0xA721), (0xA770, 0xA770),
  (0xA788, 0xA78A), (0xA7F2, 0xA7F4), (0xA7F8, 0xA7F9), (0xA802, 0xA802), (0xA806, 0xA806),
  (0xA80B, 0xA80B), (0xA825, 0xA826), (0xA82C, 0xA82C), (0xA8C4, 0xA8C5), (0xA8E0, 0xA8F1),
  (0xA8FF, 0xA8FF), (0xA926, 0xA92D), (0xA947, 0xA951), (0xA980, 0xA982), (0xA9B3, 0xA9B3),
  (0xA9B6, 0xA9B9), (0xA9BC, 0xA9BD), (0xA9CF, 0xA9CF), (0xA9E5, 0xA9E6), (0xAA29, 0xAA2E),
  (0xAA31, 0xAA32), (0xAA35, 0xAA36), (0xAA43, 0xAA43), (0xAA4C, 0xAA4C), (0xAA70, 0xAA70),
  (0xAA7C, 0xAA7C), (0xAAB0, 0xAAB0), (0xAAB2, 0xAAB4), (0xAAB7, 0xAAB8), (0xAABE, 0xAABF),
  (0xAAC1, 0xAAC1), (0xAADD, 0xAADD), (0xAAEC, 0xAAED), (0xAAF3, 0xAAF4), (0xAAF6, 0xAAF6),
  (0xAB5B, 0xAB5F), (0xAB69, 0xAB6B), (0xABE5, 0xABE5), (0xABE8, 0xABE8), (0xABED, 0xABED),
  (0xFB1E, 0xFB1E), (0xFBB2, 0xFBC2), (0xFE00, 0xFE0F), (0xFE13, 0xFE13), (0xFE20, 0xFE2F),
  (0xFE52, 0xFE52), (0xFE55, 0xFE55), (0xFEFF, 0xFEFF), (0xFF07, 0xFF07), (0xFF0E, 0xFF0E),
  (0xFF1A, 0xFF1A), (0xFF3E, 0xFF3E), (0xFF40, 0xFF40), (0xFF70, 0xFF70), (0xFF9E, 0xFF9F),
  (0xFFE3, 0xFFE3), (0xFFF9, 0xFFFB), (0x101FD, 0x101FD), (0x102E0, 0x102E0), (0x10376, 0x1037A),
  (0x10780, 0x10785), (0x10787, 0x107B0), (0x107B2, 0x107BA), (0x10A01, 0x10A03),
  (0x10A05, 0x10A06), (0x10A0C, 0x10A0F), (0x10A38, 0x10A3A), (0x10A3F, 0x10A3F),
  (0x10AE5, 0x10AE6), (0x10D24, 0x10D27), (0x10EAB, 0x10EAC), (0x10F46, 0x10F50),
  (0x10F82, 0x10F85), (0x11001, 0x11001), (0x11038, 0x11046), (0x11070, 0x11070),
  (0x11073, 0x11074), (0x1107F, 0x11081), (0x110B3, 0x110B6), (0x110B9, 0x110BA),
  (0x110BD, 0x110BD), (0x110C2, 0x110C2), (0x110CD, 0x110CD), (0x11100, 0x11102),
  (0x11127, 0x1112B), (0x1112D, 0x11134), (0x11173, 0x11173), (0x11180, 0x11181),
  (0x111B6, 0x111BE), (0x111C9, 0x111CC), (0x111CF, 0x111CF), (0x1122F, 0x11231),
  (0x11234, 0x11234), (0x11236, 0x11237), (0x1123E, 0x1123E), (0x112DF, 0x112DF),
  (0x112E3, 0x112EA), (0x11300, 0x11301), (0x1133B, 0x1133C), (0x11340, 0x11340),
  (0x11366, 0x1136C), (0x11370, 0x11374), (0x11438, 0x1143F), (0x11442, 0x11444),
  (0x11446, 0x11446), (0x1145E, 0x1145E), (0x114B3, 0x114B8), (0x114BA, 0x114BA),
  (0x114BF, 0x114C0), (0x114C2, 0x114C3), (0x115B2, 0x115B5), (0x115BC, 0x115BD),
  (0x115BF, 0x115C0), (0x115DC, 0x115DD), (0x11633, 0x1163A), (0x1163D, 0x1163D),
  (0x1163F, 0x11640), (0x116AB, 0x116AB), (0x116AD, 0x116AD), (0x116B0, 0x116B5),
  (0x116B7, 0x116B7), (0x1171D, 0x1171F), (0x11722, 0x11725), (0x11727, 0x1172B),
  (0x1182F, 0x11837), (0x11839, 0x1183A), (0x1193B, 0x1193C), (0x1193E, 0x1193E),
  (0x11943, 0x11943), (0x119D4, 0x119D7), (0x119DA, 0x119DB), (0x119E0, 0x119E0),
  (0x11A01, 0x11A0A), (0x11A33, 0x11A38), (0x11A3B, 0x11A3E), (0x11A47, 0x11A47),
  (0x11A51, 0x11A56), (0x11A59, 0x11A5B), (0x11A8A, 0x11A96), (0x11A98, 0x11A99),
  (0x11C30, 0x11C36), (0x11C38, 0x11C3D), (0x11C3F, 0x11C3F), (0x11C92, 0x11CA7),
  (0x11CAA, 0x11CB0), (0x11CB2, 0x11CB3), (0x11CB5, 0x11CB6), (0x11D31, 0x11D36),
  (0x11D3A, 0x11D3A), (0x11D3C, 0x11D3D), (0x11D3F, 0x11D45), (0x11D47, 0x11D47),
  (0x11D90, 0x11D91), (0x11D95, 0x11D95), (0x11D97, 0x11D97), (0x11EF3, 0x11EF4),
  (0x13430, 0x13438), (0x16AF0, 0x16AF4), (0x16B30, 0x16B36), (0x16B40, 0x16B43),
  (0x16F4F, 0x16F4F), (0x16F8F, 0x16F9F), (0x16FE0, 0x16FE1), (0x16FE3, 0x16FE4),
  (0x1AFF0, 0x1AFF3), (0x1AFF5, 0x1AFFB), (0x1AFFD, 0x1AFFE), (0x1BC9D, 0x1BC9E),
  (0x1BCA0, 0x1BCA3), (0x1CF00, 0x1CF2D), (0x1CF30, 0x1CF46), (0x1D167, 0x1D169),
  (0x1D173, 0x1D182), (0x1D185, 0x1D18B), (0x1D1AA, 0x1D1AD), (0x1D242, 0x1D244),
  (0x1DA00, 0x1DA36), (0x1DA3B, 0x1DA6C), (0x1DA75, 0x1DA75), (0x1DA84, 0x1DA84),
  (0x1DA9B, 0x1DA9F), (0x1DAA1, 0x1DAAF), (0x1E000, 0x1E006), (0x1E008, 0x1E018),
  (0x1E01B, 0x1E021), (0x1E023, 0x1E024), (0x1E026, 0x1E02A), (0x1E130, 0x1E13D),
  (0x1E2AE, 0x1E2AE), (0x1E2EC, 0x1E2EF), (0x1E8D0, 0x1E8D6), (0x1E944, 0x1E94B),
  (0x1F3FB, 0x1F3FF), (0xE0001, 0xE0001), (0xE0020, 0xE007F), (0xE0100, 0xE01EF)]

/-- The code points with the property `Cased` (Unicode 14.0), as ranges. -/
def casedRanges : List (Nat × Nat) := [
  (0x41, 0x5A), (0x61, 0x7A), (0xAA, 0xAA), (0xB5, 0xB5), (0xBA, 0xBA), (0xC0, 0xD6), (0xD8, 0xF6),
  (0xF8, 0x1BA), (0x1BC, 0x1BF), (0x1C4, 0x293), (0x295, 0x2B8), (0x2C0, 0x2C1), (0x2E0, 0x2E4),
  (0x345, 0x345), (0x370, 0x373), (0x376, 0x377), (0x37A, 0x37D), (0x37F, 0x37F), (0x386, 0x386),
  (0x388, 0x38A), (0x38C, 0x38C), (0x38E, 0x3A1), (0x3A3, 0x3F5), (0x3F7, 0x481), (0x48A, 0x52F),
  (0x531, 0x556), (0x560, 0x588), (0x10A0, 0x10C5), (0x10C7, 0x10C7), (0x10CD, 0x10CD),
  (0x10D0, 0x10FA), (0x10FD, 0x10FF), (0x13A0, 0x13F5), (0x13F8, 0x13FD), (0x1C80, 0x1C88),
  (0x1C90, 0x1CBA), (0x1CBD, 0x1CBF), (0x1D00, 0x1DBF), (0x1E00, 0x1F15), (0x1F18, 0x1F1D),
  (0x1F20, 0x1F45), (0x1F48, 0x1F4D), (0x1F50, 0x1F57), (0x1F59, 0x1F59), (0x1F5B, 0x1F5B),
  (0x1F5D, 0x1F5D), (0x1F5F, 0x1F7D), (0x1F80, 0x1FB4), (0x1FB6, 0x1FBC), (0x1FBE, 0x1FBE),
  (0x1FC2, 0x1FC4), (0x1FC6, 0x1FCC), (0x1FD0, 0x1FD3), (0x1FD6, 0x1FDB), (0x1FE0, 0x1FEC),
  (0x1FF2, 0x1FF4), (0x1FF6, 0x1FFC), (0x2071, 0x2071), (0x207F, 0x207F), (0x2090, 0x209C),
  (0x2102, 0x2102), (0x2107, 0x2107), (0x210A, 0x2113), (0x2115, 0x2115), (0x2119, 0x211D),
  (0x2124, 0x2124), (0x2126, 0x2126), (0x2128, 0x2128), (0x212A, 0x212D), (0x212F, 0x2134),
  (0x2139, 0x2139), (0x213C, 0x213F), (0x2145, 0x2149), (0x214E, 0x214E), (0x2160, 0x217F),
  (0x2183, 0x2184), (0x24B6, 0x24E9), (0x2C00, 0x2CE4), (0x2CEB, 0x2CEE), (0x2CF2, 0x2CF3),
  (0x2D00, 0x2D25), (0x2D27, 0x2D27), (0x2D2D, 0x2D2D), (0xA640, 0xA66D), (0xA680, 0xA69D),
  (0xA722, 0xA787), (0xA78B, 0xA78E), (0xA790, 0xA7CA), (0xA7D0, 0xA7D1), (0xA7D3, 0xA7D3),
  (0xA7D5, 0xA7D9), (0xA7F5, 0xA7F6), (0xA7F8, 0xA7FA), (0xAB30, 0xAB5A), (0xAB5C, 0xAB68),
  (0xAB70, 0xABBF), (0xFB00, 0xFB06), (0xFB13, 0xFB17), (0xFF21, 0xFF3A), (0xFF41, 0xFF5A),
  (0x10400, 0x1044F), (0x104B0, 0x104D3), (0x104D8, 0x104FB), (0x10570, 0x1057A),
  (0x1057C, 0x1058A), (0x1058C, 0x10592), (0x10594, 0x10595), (0x10597, 0x105A1),
  (0x105A3, 0x105B1), (0x105B3, 0x105B9), (0x105BB, 0x105BC), (0x10780, 0x10780),
  (0x10783, 0x10785), (0x10787, 0x107B0), (0x107B2, 0x107BA), (0x10C80, 0x10CB2),
  (0x10CC0, 0x10CF2), (0x118A0, 0x118DF), (0x16E40, 0x16E7F), (0x1D400, 0x1D454),
  (0x1D456, 0x1D49C), (0x1D49E, 0x1D49F), (0x1D4A2, 0x1D4A2), (0x1D4A5, 0x1D4A6),
  (0x1D4A9, 0x1D4AC), (0x1D4AE, 0x1D4B9), (0x1D4BB, 0x1D4BB), (0x1D4BD, 0x1D4C3),
  (0x1D4C5, 0x1D505), (0x1D507, 0x1D50A), (0x1D50D, 0x1D514), (0x1D516, 0x1D51C),
  (0x1D51E, 0x1D539), (0x1D53B, 0x1D53E), (0x1D540, 0x1D544), (0x1D546, 0x1D546),
  (0x1D54A, 0x1D550), (0x1D552, 0x1D6A5), (0x1D6A8, 0x1D6C0), (0x1D6C2, 0x1D6DA),
  (0x1D6DC, 0x1D6FA), (0x1D6FC, 0x1D714), (0x1D716, 0x1D734), (0x1D736, 0x1D74E),
  (0x1D750, 0x1D76E), (0x1D770, 0x1D788), (0x1D78A, 0x1D7A8), (0x1D7AA, 0x1D7C2),
  (0x1D7C4, 0x1D7CB), (0x1DF00, 0x1DF09), (0x1DF0B, 0x1DF1E), (0x1E900, 0x1E943),
  (0x1F130, 0x1F149), (0x1F150, 0x1F169), (0x1F170, 0x1F189)]

/-- Membership of a code point in a list of ranges. -/
def inRanges (ranges : List (Nat × Nat)) (n : Nat) : Bool :=
  ranges.any (fun r => decide (r.1 ≤ n) && decide (n ≤ r.2))

/-- The property `Case_Ignorable`. -/
def isCaseIgnorable (c : Char) : Bool := inRanges caseIgnorableRanges c.toNat

/-- The property `Cased`. -/
def isCased (c : Char) : Bool := inRanges casedRanges c.toNat

/-- Walking away from a sigma over the case-ignorable characters, whether the first
other character is cased (the way the engine evaluates both halves of the
`Final_Sigma` condition). -/
def casedBeyondIgnorable : List Char → Bool
  | [] => false
  | c :: rest => if isCaseIgnorable c then casedBeyondIgnorable rest else isCased c

/-- The condition `Final_Sigma` of `SpecialCasing.txt`: the sigma is preceded by a
cased letter and then case-ignorable characters, and is not followed by
case-ignorable characters and then a cased letter. `before` lists the characters
before the sigma, nearest first. -/
def finalSigma (before after : List Char) : Bool :=
  casedBeyondIgnorable before && !casedBeyondIgnorable after

/-- The lowercase mapping of one character in its context: the two entries of
`SpecialCasing.txt` that apply without a language (capital sigma, final or not,
and capital I with dot above, which becomes `i` and a combining dot), else the
simple mapping. -/
def lowerAt (before : List Char) (c : Char) (after : List Char) : List Char :=
  if c = 'Σ' then (if finalSigma before after then ['ς'] else ['σ'])
  else if c = 'İ' then ['i', Char.ofNat 0x307]
  else [simpleLower c]

/-- Lowercase a list of characters; `before` lists the characters already passed,
nearest first. -/
def lowerChars (before : List Char) : List Char → List Char
  | [] => []
  | c :: rest => lowerAt before c rest ++ lowerChars (c :: before) rest

/-- The method `String.prototype.toLowerCase`: the Unicode default lowercase
conversion (the simple mappings and the language-independent special casings of
Unicode 14.0). -/
def toLowerCase (s : String) : String := ⟨lowerChars [] s.data⟩

/-- The code points a run maps to. -/
def CaseRun.images (r : CaseRun) : List Nat :=
  (List.range ((r.hi - r.lo) / r.step + 1)).map (fun k => r.target + k * r.step)

/-- Whether no code point the run `r` maps to is mapped by the run `r'`: the two
intervals lie apart, or each image is checked. -/
def CaseRun.imagesClearOf (r r' : CaseRun) : Bool :=
  Nat.blt (r.target + (r.hi - r.lo)) r'.lo || Nat.blt r'.hi r.target ||
    r.images.all (fun m => !r'.covers m)

/-- Whether a code point is a character that is neither whitespace nor `@`. -/
def isPlainCode (m : Nat) : Bool :=
  decide m.isValidChar && !isWhiteSpace (Char.ofNat m) && !(Char.ofNat m == '@')

/-- The check of one run of the lowercase mapping: what it maps to is a character,
neither whitespace nor `@`, that no run maps further. -/
def CaseRun.checked (r : CaseRun) : Bool :=
  r.images.all isPlainCode && lowerRuns.all (fun r' => r.imagesClearOf r')

/-! ## Regular expressions -/

/-- The fragment of regular expressions the source uses: character classes,
concatenation and repetition (alternation arises in derivatives). -/
inductive Regex
  | nothing
  | eps
  | cls (p : Char → Bool)
  | seq (a b : Regex)
  | alt (a b : Regex)
  | star (a : Regex)

/-- A single literal character, such as `@` or `\.`. -/
def Regex.chr (c : Char) : Regex := .cls (fun x => x == c)

/-- The postfix operator `+`: one or more repetitions. -/
def Regex.plus (r : Regex) : Regex := .seq r (.star r)

/-- Whether the expression matches the empty string. -/
def Regex.nullable : Regex → Bool
  | .nothing => false
  | .eps => true
  | .cls _ => false
  | .seq a b => a.nullable && b.nullable
  | .alt a b => a.nullable || b.nullable
  | .star _ => true

/-- Brzozowski derivative: what remains to be matched after reading `c`. -/
def Regex.deriv (c : Char) : Regex → Regex
  | .nothing => .nothing
  | .eps => .nothing
  | .cls p => if p c then .eps else .nothing
  | .seq a b =>
    if a.nullable then .alt (.seq (a.deriv c) b) (b.deriv c) else .seq (a.deriv c) b
  | .alt a b => .alt (a.deriv c) (b.deriv c)
  | .star a => .seq (a.deriv c) (.star a)

/-- Match a whole list of characters (the expression anchored by `^` and `$`). -/
def Regex.matchFrom : Regex → List Char → Bool
  | r, [] => r.nullable
  | r, c :: cs => Regex.matchFrom (r.deriv c) cs

/-- The method `RegExp.prototype.test` for an expression anchored at both ends. -/
def Regex.test (r : Regex) (s : String) : Bool := r.matchFrom s.data

/-- The language of an expression: the lists of characters it matches. -/
inductive Regex.Matches : Regex → List Char → Prop
  | eps : Regex.Matches .eps []
  | cls (p : Char → Bool) (c : Char) : p c = true → Regex.Matches (.cls p) [c]
  | seq (a b : Regex) (s t : List Char) :
    Regex.Matches a s → Regex.Matches b t → Regex.Matches (.seq a b) (s ++ t)
  | altL (a b : Regex) (s : List Char) : Regex.Matches a s → Regex.Matches (.alt a b) s
  | altR (a b : Regex) (s : List Char) : Regex.Matches b s → Regex.Matches (.alt a b) s
  | starNil (a : Regex) : Regex.Matches (.star a) []
  | starCons (a : Regex) (s t : List Char) :
    Regex.Matches a s → Regex.Matches (.star a) t → Regex.Matches (.star a) (s ++ t)

/-- The class `[^\s@]`. -/
def notSpaceAt (c : Char) : Bool := !isWhiteSpace c && !(c == '@')

/-- The source's `emailRegex`, `/^[^\s@]+@[^\s@]+\.[^\s@]+$/`. -/
def emailRegex : Regex :=
  .seq (.plus (.cls notSpaceAt))
    (.seq (.chr '@')
      (.seq (.plus (.cls notSpaceAt))
        (.seq (.chr '.') (.plus (.cls notSpaceAt)))))

/-- The value of a digit character in radix up to 16. -/
def digitValue (c : Char) : Nat :=
  if '0' ≤ c ∧ c ≤ '9' then c.toNat - '0'.toNat
  else if 'a' ≤ c ∧ c ≤ 'f' then c.toNat - 'a'.toNat + 10
  else if 'A' ≤ c ∧ c ≤ 'F' then c.toNat - 'A'.toNat + 10
  else 0

/-- Whether `c` is a digit of radix `R` (10 or 16). -/
def isRadixDigit (R : Nat) (c : Char) : Bool :=
  decide ('0' ≤ c ∧ c ≤ '9') ||
    (R == 16 && (decide ('a' ≤ c ∧ c ≤ 'f') || decide ('A' ≤ c ∧ c ≤ 'F')))

/-- The function `parseInt(string)` with no radix: skip leading whitespace, read
an optional sign, an optional `0x`/`0X` (radix 16), then the longest run of
digits; `none` is `NaN` (no digit read). The value is the exact integer the
digits denote (the engine rounds it to a double beyond 2^53, and the sign of
zero is not kept). -/
def parseInt (s : String) : Option Int :=
  let S := s.data.dropWhile isWhiteSpace
  let (sign, S) : Int × List Char :=
    match S with
    | '-' :: rest => (-1, rest)
    | '+' :: rest => (1, rest)
    | _ => (1, S)
  let (R, S) : Nat × List Char :=
    match S with
    | '0' :: 'x' :: rest => (16, rest)
    | '0' :: 'X' :: rest => (16, rest)
    | _ => (10, S)
  let Z := S.takeWhile (isRadixDigit R)
  if Z.isEmpty then none
  else some (sign * ((Z.foldl (fun acc c => acc * R + digitValue c) 0 : Nat) : Int))

/-! ## Data model -/

/-- An instance of the class `User`, which is also the shape of a row of the
`users` table: the constructor copies these four fields. -/
structure User where
  id : Int
  name : JsVal
  email : JsVal
  created_at : Nat
  deriving DecidableEq, Repr

/-- A plain object with string keys, such as `req.body` or `cleanUpdateData`. -/
structure JsObject where
  fields : List (String × JsVal)
  deriving DecidableEq, Repr

/-- Property read `o.key`: `undefined` when the key is absent. -/
def JsObject.get (o : JsObject) (key : String) : JsVal :=
  (o.fields.lookup key).getD .undefined

/-- Property write `o.key = v`. -/
def JsObject.set (o : JsObject) (key : String) (v : JsVal) : JsObject :=
  ⟨o.fields.filter (fun kv => kv.1 != key) ++ [(key, v)]⟩

/-- The keys of an object. -/
def JsObject.keys (o : JsObject) : List String := o.fields.map Prod.fst

/-! ## `User.validate` -/

/-- The candidate record handed to `User.validate`. -/
structure UserData where
  name : JsVal
  email : JsVal
  deriving DecidableEq, Repr

/-- The result of `User.validate`. -/
structure Validation where
  isValid : Bool
  errors : List String
  deriving DecidableEq, Repr

/-- The static method `User.validate`. -/
def User.validate (userData : UserData) : Validation :=
  let errors : List String := []
  let errors :=
    if !userData.name.truthy || !userData.name.isString
        || (trim userData.name.asString).length == 0 then
      errors ++ ["Name is required and must be a non-empty string"]
    else errors
  let errors :=
    if !userData.email.truthy || !userData.email.isString then
      errors ++ ["Email is required and must be a string"]
    else
      if !emailRegex.test userData.email.asString then
        errors ++ ["Email must be a valid email address"]
      else errors
  { isValid := errors.length == 0, errors := errors }

/-! ## Errors and the store client -/

/-- A thrown JavaScript `Error` object, as far as `errorHandler` reads it.
`statusCode` is `none` when the property is absent. -/
structure JsError where
  name : String
  message : String
  statusCode : Option Int
  stack : String
  deriving DecidableEq, Repr

/-- The expression `new Error(message)`: no `statusCode`, and a stack that
starts with the line `Error: message` (the frame lines that follow depend on
the call site and are left out). -/
def newError (message : String) : JsError :=
  { name := "Error", message := message, statusCode := none,
    stack := "Error: " ++ message }

/-- The `TypeError` the engine throws when `trim` is called on a value that is
not a string. -/
def trimTypeError : JsError :=
  { name := "TypeError", message := "trim is not a function", statusCode := none,
    stack := "TypeError: trim is not a function" }

/-- The method call `v.trim()`. -/
def JsVal.callTrim : JsVal → Except JsError String
  | .str s => .ok (trim s)
  | _ => .error trimTypeError

/-- The `error` member of a reply of the store client. -/
structure StoreError where
  code : String
  message : String
  deriving DecidableEq, Repr

/-- The reply `{ data, error }` of a store query. -/
inductive Reply (α : Type)
  | data (d : α)
  | error (e : StoreError)
  deriving DecidableEq, Repr

/-- The queries the repository sends through the store client (`supabase`), over a
store state `σ`. Each is the chain of calls named in its comment. -/
structure Client (σ : Type) where
  /-- The chain `from('users').insert([{ name, email }]).select().single()`. -/
  insert : UserData → σ → Reply User × σ
  /-- The chain `from('users').select('*').eq('id', id).single()`. -/
  selectById : Int → σ → Reply User × σ
  /-- The chain `from('users').select('*').eq('email', email).single()`. -/
  selectByEmail : JsVal → σ → Reply User × σ
  /-- The chain `from('users').update(updateData).eq('id', id).select().single()`. -/
  update : Int → JsObject → σ → Reply User × σ
  /-- The chain `from('users').delete().eq('id', id)`. -/
  delete : Int → σ → Option StoreError × σ

/-- A call of a static method of `User` that reaches the store. -/
inductive Call
  | create (userData : UserData)
  | findById (id : Int)
  | findByEmail (email : JsVal)
  | update (id : Int) (updateData : JsObject)
  | delete (id : Int)
  deriving DecidableEq, Repr

/-- The store state together with the calls made to the repository so far. -/
structure World (σ : Type) where
  db : σ
  calls : List Call
  deriving DecidableEq, Repr

/-! ## The repository: static methods of `User` -/

/-- The error the repository throws on a store failure:
`new Error("Database error: " + error.message)`. -/
def databaseError (error : StoreError) : JsError :=
  newError ("Database error: " ++ error.message)

/-- The static method `User.create`. -/
def User.create {σ : Type} (c : Client σ) (userData : UserData) (w : World σ) :
    Except JsError User × World σ :=
  let name := userData.name
  let email := userData.email
  match c.insert { name := name, email := email } w.db with
  | (.error error, db) =>
    (.error (databaseError error), { db := db, calls := w.calls ++ [.create userData] })
  | (.data data, db) => (.ok data, { db := db, calls := w.calls ++ [.create userData] })

/-- The static method `User.findById`; `none` is `null`. -/
def User.findById {σ : Type} (c : Client σ) (id : Int) (w : World σ) :
    Except JsError (Option User) × World σ :=
  match c.selectById id w.db with
  | (.error error, db) =>
    if error.code == "PGRST116" then
      (.ok none, { db := db, calls := w.calls ++ [.findById id] })
    else (.error (databaseError error), { db := db, calls := w.calls ++ [.findById id] })
  | (.data data, db) => (.ok (some data), { db := db, calls := w.calls ++ [.findById id] })

/-- The static method `User.findByEmail`; `none` is `null`. -/
def User.findByEmail {σ : Type} (c : Client σ) (email : JsVal) (w : World σ) :
    Except JsError (Option User) × World σ :=
  match c.selectByEmail email w.db with
  | (.error error, db) =>
    if error.code == "PGRST116" then
      (.ok none, { db := db, calls := w.calls ++ [.findByEmail email] })
    else
      (.error (databaseError error), { db := db, calls := w.calls ++ [.findByEmail email] })
  | (.data data, db) =>
    (.ok (some data), { db := db, calls := w.calls ++ [.findByEmail email] })

/-- The static method `User.update`. -/
def User.update {σ : Type} (c : Client σ) (id : Int) (updateData : JsObject)
    (w : World σ) : Except JsError User × World σ :=
  match c.update id updateData w.db with
  | (.error error, db) =>
    (.error (databaseError error), { db := db, calls := w.calls ++ [.update id updateData] })
  | (.data data, db) =>
    (.ok data, { db := db, calls := w.calls ++ [.update id updateData] })

/-- The static method `User.delete`. -/
def User.delete {σ : Type} (c : Client σ) (id : Int) (w : World σ) :
    Except JsError Bool × World σ :=
  match c.delete id w.db with
  | (some error, db) =>
    (.error (databaseError error), { db := db, calls := w.calls ++ [.delete id] })
  | (none, db) => (.ok true, { db := db, calls := w.calls ++ [.delete id] })

/-! ## HTTP responses -/

/-- The `details` member of an error envelope: a text or the list of validation
errors. -/
inductive Details
  | text (s : String)
  | list (l : List String)
  deriving DecidableEq, Repr

/-- The `error` member of a response envelope. -/
structure ErrorInfo where
  message : String
  details : Option Details := none
  stack : Option String := none
  deriving DecidableEq, Repr

/-- The `data` member of a success envelope. -/
inductive Data
  | user (user : User)
  | deletedUserId (id : Int)
  deriving DecidableEq, Repr

/-- The JSON envelope `{ success, message?, data?, error? }`. -/
structure Body where
  success : Bool
  message : Option String := none
  data : Option Data := none
  error : Option ErrorInfo := none
  deriving DecidableEq, Repr

/-- What `res.status(code).json(body)` sends. -/
structure Response where
  status : Int
  body : Body
  deriving DecidableEq, Repr

/-- How a handler ends: it sends a response, or forwards an error with
`next(error)`. -/
inductive Outcome
  | sent (res : Response)
  | next (error : JsError)
  deriving DecidableEq, Repr

/-- The route parameters `req.params`. -/
structure Params where
  id : String := ""
  deriving DecidableEq, Repr

/-- The request as the handlers read it: `req.params` and the parsed JSON
`req.body`. -/
structure Request where
  params : Params := {}
  body : JsObject := ⟨[]⟩
  deriving DecidableEq, Repr

/-! ## The request handlers: static methods of `UserController` -/

/-- The 400 response to an id that does not parse. -/
def invalidUserId : Response :=
  { status := 400,
    body := { success := false,
              error := some { message := "Invalid user ID",
                              details := some (.text "User ID must be a valid number") } } }

/-- The 404 response to an id with no row. -/
def userNotFound (id : String) : Response :=
  { status := 404,
    body := { success := false,
              error := some { message := "User not found",
                              details := some (.text ("No user found with ID " ++ id)) } } }

/-- The handler `UserController.createUser`. -/
def UserController.createUser {σ : Type} (c : Client σ) (req : Request) (w : World σ) :
    Outcome × World σ :=
  let name := req.body.get "name"
  let email := req.body.get "email"
  let validation := User.validate { name := name, email := email }
  if !validation.isValid then
    (.sent { status := 400,
             body := { success := false,
                       error := some {
                         message := "Validation failed - looks like your data needs some validation therapy! 😅",
                         details := some (.list validation.errors) } } }, w)
  else
    match User.findByEmail c email w with
    | (.error error, w) => (.next error, w)
    | (.ok (some _), w) =>
      (.sent { status := 409,
               body := { success := false,
                         error := some {
                           message := "User with this email already exists. Please use a different email address.",
                           details := some (.text "This email address is already taken - looks like someone beat you to the punch! 📧") } } }, w)
    | (.ok none, w) =>
      match name.callTrim with
      | .error error => (.next error, w)
      | .ok trimmedName =>
        match email.callTrim with
        | .error error => (.next error, w)
        | .ok trimmedEmail =>
          match User.create c { name := .str trimmedName,
                                email := .str (toLowerCase trimmedEmail) } w with
          | (.error error, w) => (.next error, w)
          | (.ok newUser, w) =>
            (.sent { status := 201,
                     body := { success := true, message := some "User created successfully",
                               data := some (.user newUser) } }, w)

/-- The handler `UserController.getUserById`. -/
def UserController.getUserById {σ : Type} (c : Client σ) (req : Request) (w : World σ) :
    Outcome × World σ :=
  let id := req.params.id
  if id.data.isEmpty then (.sent invalidUserId, w)
  else
    match parseInt id with
    | none => (.sent invalidUserId, w)
    | some n =>
      match User.findById c n w with
      | (.error error, w) => (.next error, w)
      | (.ok none, w) => (.sent (userNotFound id), w)
      | (.ok (some user), w) =>
        (.sent { status := 200,
                 body := { success := true, message := some "User fetched successfully",
                           data := some (.user user) } }, w)

/-- The end of `updateUser`, from `// Prepare clean update data` on: build
`cleanUpdateData`, call `User.update`, respond 200. -/
def UserController.sendUpdate {σ : Type} (c : Client σ) (n : Int) (updateData : JsObject)
    (w : World σ) : Outcome × World σ :=
  let cleanUpdateData : JsObject := ⟨[]⟩
  let withName : Except JsError JsObject :=
    if (updateData.get "name").truthy then
      (updateData.get "name").callTrim.map (fun s => cleanUpdateData.set "name" (.str s))
    else .ok cleanUpdateData
  match withName with
  | .error error => (.next error, w)
  | .ok cleanUpdateData =>
    let withEmail : Except JsError JsObject :=
      if (updateData.get "email").truthy then
        (updateData.get "email").callTrim.map
          (fun s => cleanUpdateData.set "email" (.str (toLowerCase s)))
      else .ok cleanUpdateData
    match withEmail with
    | .error error => (.next error, w)
    | .ok cleanUpdateData =>
      match User.update c n cleanUpdateData w with
      | (.error error, w) => (.next error, w)
      | (.ok updatedUser, w) =>
        (.sent { status := 200,
                 body := { success := true, message := some "User updated successfully",
                           data := some (.user updatedUser) } }, w)

/-- The handler `UserController.updateUser`. -/
def UserController.updateUser {σ : Type} (c : Client σ) (req : Request) (w : World σ) :
    Outcome × World σ :=
  let id := req.params.id
  let updateData := req.body
  if id.data.isEmpty then (.sent invalidUserId, w)
  else
    match parseInt id with
    | none => (.sent invalidUserId, w)
    | some n =>
      match User.findById c n w with
      | (.error error, w) => (.next error, w)
      | (.ok none, w) => (.sent (userNotFound id), w)
      | (.ok (some existingUser), w) =>
        -- the validation result is read only under `if (updateData.name || updateData.email)`
        let validation := User.validate
          { name := (updateData.get "name").or existingUser.name,
            email := (updateData.get "email").or existingUser.email }
        if ((updateData.get "name").truthy || (updateData.get "email").truthy)
            && !validation.isValid then
          (.sent { status := 400,
                   body := { success := false,
                             error := some { message := "Validation failed",
                                             details := some (.list validation.errors) } } }, w)
        else if (updateData.get "email").truthy
            && (updateData.get "email").strictNe existingUser.email then
          match User.findByEmail c (updateData.get "email") w with
          | (.error error, w) => (.next error, w)
          | (.ok (some _), w) =>
            (.sent { status := 409,
                     body := { success := false,
                               error := some {
                                 message := "Email already exists",
                                 details := some (.text "Another user with this email already exists") } } }, w)
          | (.ok none, w) => UserController.sendUpdate c n updateData w
        else UserController.sendUpdate c n updateData w

/-- The handler `UserController.deleteUser`. -/
def UserController.deleteUser {σ : Type} (c : Client σ) (req : Request) (w : World σ) :
    Outcome × World σ :=
  let id := req.params.id
  if id.data.isEmpty then (.sent invalidUserId, w)
  else
    match parseInt id with
    | none => (.sent invalidUserId, w)
    | some n =>
      match User.findById c n w with
      | (.error error, w) => (.next error, w)
      | (.ok none, w) => (.sent (userNotFound id), w)
      | (.ok (some _), w) =>
        match User.delete c n w with
        | (.error error, w) => (.next error, w)
        | (.ok _, w) =>
          (.sent { status := 200,
                   body := { success := true, message := some "User deleted successfully",
                             data := some (.deletedUserId n) } }, w)

/-! ## The central error handler -/

/-- The middleware `errorHandler`; `NODE_ENV` is `process.env.NODE_ENV`, `none` when
unset. -/
def errorHandler (error : JsError) (NODE_ENV : Option String) : Response :=
  let statusCode : Int :=
    match error.statusCode with
    | some code => if code != 0 then code else 500
    | none => 500
  let message : String :=
    if !error.message.data.isEmpty then error.message else "Internal server error"
  let (statusCode, message) :=
    if error.name == "ValidationError" then (400, "Validation failed")
    else (statusCode, message)
  let (statusCode, message) :=
    if error.name == "CastError" then (400, "Invalid data format")
    else (statusCode, message)
  { status := statusCode,
    body := { success := false,
              error := some { message := message,
                              stack := if NODE_ENV == some "development" then some error.stack
                                       else none } } }

/-! ## The record store -/

/-- Modelled from the spec: the state of the Record Store, one table of users
keyed by a store-assigned integer id, with the next id and a clock for the
store-assigned `created_at`. The store client itself is an external library. -/
structure Db where
  rows : List User
  nextId : Int
  clock : Nat
  deriving DecidableEq, Repr

/-- Modelled from the spec: the distinguishable "no rows" condition of a single-row
fetch, which the client reports under the code `PGRST116`. -/
def noRows : StoreError :=
  { code := "PGRST116", message := "JSON object requested, multiple (or no) rows returned" }

/-- Modelled from the spec: the single-row fetch `.single()` of the selected rows;
anything but exactly one row is the "no rows" condition. -/
def single : List User → Reply User
  | [row] => .data row
  | _ => .error noRows

/-- Modelled from the spec: apply the supplied fields of an update payload to a
row. Only `name` and `email` are mutable; the handlers send no other key. -/
def applyFields (updateData : JsObject) (row : User) : User :=
  { row with
    name := (updateData.fields.lookup "name").getD row.name
    email := (updateData.fields.lookup "email").getD row.email }

/-- Modelled from the spec: the Record Store as an in-memory table with equality
filtering (`eq` compares the column with the given value exactly), store-assigned
id and timestamp on insert, and no uniqueness constraint on `email`. -/
def memClient : Client Db where
  insert := fun userData db =>
    let row : User :=
      { id := db.nextId, name := userData.name, email := userData.email,
        created_at := db.clock }
    (.data row, { rows := db.rows ++ [row], nextId := db.nextId + 1, clock := db.clock + 1 })
  selectById := fun id db => (single (db.rows.filter (fun row => row.id == id)), db)
  selectByEmail := fun email db =>
    (single (db.rows.filter (fun row => email.isString && row.email == email)), db)
  update := fun id updateData db =>
    let rows := db.rows.map (fun row => if row.id == id then applyFields updateData row else row)
    (single (rows.filter (fun row => row.id == id)), { db with rows := rows })
  delete := fun id db => (none, { db with rows := db.rows.filter (fun row => row.id != id) })

/-! ## Sequential execution -/

/-- A write request to the users resource: `POST /users`, `PUT /users/:id` or
`DELETE /users/:id`. -/
inductive Op
  | createUser (req : Request)
  | updateUser (req : Request)
  | deleteUser (req : Request)
  deriving DecidableEq, Repr

/-- Route one request to its handler, over the in-memory store. -/
def Op.handle : Op → World Db → Outcome × World Db
  | .createUser req, w => UserController.createUser memClient req w
  | .updateUser req, w => UserController.updateUser memClient req w
  | .deleteUser req, w => UserController.deleteUser memClient req w

/-- Process requests one at a time, each on the store the previous one left. -/
def runAll : List Op → World Db → World Db
  | [], w => w
  | op :: ops, w => runAll ops (op.handle w).2

/-- No two rows of the table have the same email. -/
def EmailsUnique (db : Db) : Prop := (db.rows.map (fun row => row.email)).Nodup

instance (db : Db) : Decidable (EmailsUnique db) := by
  unfold EmailsUnique; infer_instance

/-! ## The rules of the specification, in its words -/

/-- A character that is not whitespace. -/
def NonSpace (c : Char) : Prop := isWhiteSpace c = false

/-- A character that is neither whitespace nor `@`. -/
def NonSpaceNonAt (c : Char) : Prop := isWhiteSpace c = false ∧ c ≠ '@'

/-- The name rule: the name is a string that is non-empty after trimming
whitespace. -/
def NameRule (name : JsVal) : Prop := ∃ s : String, name = .str s ∧ (trim s).data ≠ []

/-- The pattern as the specification words it: one or more non-space/non-@
characters, `@`, one or more non-space/non-@ characters, `.`, one or more
non-space characters. -/
def SpecEmailPattern (l : List Char) : Prop :=
  ∃ a b c : List Char, l = a ++ '@' :: (b ++ '.' :: c) ∧ a ≠ [] ∧ b ≠ [] ∧ c ≠ [] ∧
    (∀ x ∈ a, NonSpaceNonAt x) ∧ (∀ x ∈ b, NonSpaceNonAt x) ∧ (∀ x ∈ c, NonSpace x)

/-- The pattern with a final segment that is free of `@` as well: one or more
non-space/non-@ characters, `@`, one or more non-space/non-@ characters, `.`, one
or more non-space/non-@ characters. -/
def EmailPattern (l : List Char) : Prop :=
  ∃ a b c : List Char, l = a ++ '@' :: (b ++ '.' :: c) ∧ a ≠ [] ∧ b ≠ [] ∧ c ≠ [] ∧
    (∀ x ∈ a, NonSpaceNonAt x) ∧ (∀ x ∈ b, NonSpaceNonAt x) ∧ (∀ x ∈ c, NonSpaceNonAt x)

/-- The email rule: the email is a string that matches the pattern. -/
def EmailRule (email : JsVal) : Prop := ∃ s : String, email = .str s ∧ EmailPattern s.data

/-- The text of an integer: an optional minus sign followed by one or more
decimal digits and nothing else. -/
def isIntegerText (s : String) : Bool :=
  match s.data with
  | '-' :: digits => !digits.isEmpty && digits.all Char.isDigit
  | digits => !digits.isEmpty && digits.all Char.isDigit

/-- The update payload in the specification's words: only the fields among `name`
and `email` that the request supplied with a non-empty (truthy) value, the name
trimmed, the email trimmed and lowercased. -/
def sparsePayload (body : JsObject) : JsObject :=
  ⟨(if (body.get "name").truthy then [("name", .str (trim (body.get "name").asString))]
    else []) ++
   (if (body.get "email").truthy then
      [("email", .str (toLowerCase (trim (body.get "email").asString)))]
    else [])⟩

/-- A well-formed stored user, in the specification's words: the name is a
non-empty string equal to its own trim, and the email is a lowercase string that
matches the validation pattern. -/
def WellFormedUser (u : User) : Prop :=
  ∃ name email : String, u.name = .str name ∧ u.email = .str email ∧
    name.data ≠ [] ∧ trim name = name ∧ toLowerCase email = email ∧ EmailPattern email.data

/-! ## Sample data -/

/-- A store with no user yet. -/
def emptyDb : Db := { rows := [], nextId := 1, clock := 0 }

/-- A store holding the single user Ann. -/
def annDb : Db :=
  { rows := [{ id := 1, name := .str "Ann", email := .str "ann@x.com", created_at := 0 }],
    nextId := 2, clock := 1 }

/-- A store holding the two users Ann and Bob. -/
def annBobDb : Db :=
  { rows := [{ id := 1, name := .str "Ann", email := .str "ann@x.com", created_at := 0 },
             { id := 2, name := .str "Bob", email := .str "bob@x.com", created_at := 1 }],
    nextId := 3, clock := 2 }

/-- A store client that is down: every query fails with the same error. -/
def downClient : Client Unit where
  insert := fun _ db => (.error { code := "08006", message := "connection failure" }, db)
  selectById := fun _ db => (.error { code := "08006", message := "connection failure" }, db)
  selectByEmail := fun _ db => (.error { code := "08006", message := "connection failure" }, db)
  update := fun _ _ db => (.error { code := "08006", message := "connection failure" }, db)
  delete := fun _ db => (some { code := "08006", message := "connection failure" }, db)

/-! # Theorems -/

/-! ## The regular-expression matcher decides the language -/

theorem Regex.matches_nothing (s : List Char) : ¬ Regex.Matches .nothing s := by
  intro h; cases h

theorem Regex.matches_eps_iff (s : List Char) : Regex.Matches .eps s ↔ s = [] := by
  constructor
  · intro h; cases h; rfl
  · rintro rfl; exact .eps

theorem Regex.matches_cls_iff (p : Char → Bool) (s : List Char) :
    Regex.Matches (.cls p) s ↔ ∃ c, s = [c] ∧ p c = true := by
  constructor
  · intro h; cases h with
    | cls _ c hc => exact ⟨c, rfl, hc⟩
  · rintro ⟨c, rfl, hc⟩; exact .cls p c hc

theorem Regex.matches_seq_iff (a b : Regex) (s : List Char) :
    Regex.Matches (.seq a b) s ↔
      ∃ s₁ s₂, s = s₁ ++ s₂ ∧ Regex.Matches a s₁ ∧ Regex.Matches b s₂ := by
  constructor
  · intro h; cases h with
    | seq _ _ s₁ s₂ h₁ h₂ => exact ⟨s₁, s₂, rfl, h₁, h₂⟩
  · rintro ⟨s₁, s₂, rfl, h₁, h₂⟩; exact .seq a b s₁ s₂ h₁ h₂

theorem Regex.matches_alt_iff (a b : Regex) (s : List Char) :
    Regex.Matches (.alt a b) s ↔ Regex.Matches a s ∨ Regex.Matches b s := by
  constructor
  · intro h; cases h with
    | altL _ _ _ h => exact .inl h
    | altR _ _ _ h => exact .inr h
  · rintro (h | h)
    · exact .altL a b s h
    · exact .altR a b s h

theorem Regex.nullable_iff (r : Regex) : r.nullable = true ↔ Regex.Matches r [] := by
  induction r with
  | nothing => simp [Regex.nullable, Regex.matches_nothing]
  | eps => simp [Regex.nullable, Regex.matches_eps_iff]
  | cls p => simp [Regex.nullable, Regex.matches_cls_iff]
  | seq a b iha ihb =>
    simp only [Regex.nullable, Bool.and_eq_true, iha, ihb, Regex.matches_seq_iff]
    constructor
    · rintro ⟨h₁, h₂⟩; exact ⟨[], [], rfl, h₁, h₂⟩
    · rintro ⟨s₁, s₂, h, h₁, h₂⟩
      have h' := h.symm
      rw [List.append_eq_nil] at h'
      rw [h'.1] at h₁; rw [h'.2] at h₂
      exact ⟨h₁, h₂⟩
  | alt a b iha ihb =>
    simp only [Regex.nullable, Bool.or_eq_true, iha, ihb, Regex.matches_alt_iff]
  | star a _ => simp only [Regex.nullable, true_iff]; exact .starNil a

theorem Regex.matches_star_cons_aux (r : Regex) (u : List Char) (h : Regex.Matches r u) :
    ∀ a c s, r = .star a → u = c :: s →
      ∃ s₁ s₂, s = s₁ ++ s₂ ∧ Regex.Matches a (c :: s₁) ∧ Regex.Matches (.star a) s₂ := by
  induction h with
  | eps => intro a c s hr; cases hr
  | cls p c hc => intro a c s hr; cases hr
  | seq a b s t _ _ _ _ => intro a c s hr; cases hr
  | altL a b s _ _ => intro a c s hr; cases hr
  | altR a b s _ _ => intro a c s hr; cases hr
  | starNil a => intro a c s _ hu; cases hu
  | starCons a s t h₁ h₂ _ ih₂ =>
    intro a' c u hr hu
    cases hr
    cases s with
    | nil => exact ih₂ a c u rfl (by simpa using hu)
    | cons x xs =>
      simp only [List.cons_append, List.cons.injEq] at hu
      obtain ⟨rfl, rfl⟩ := hu
      exact ⟨xs, t, rfl, h₁, h₂⟩

theorem Regex.matches_star_cons_iff (a : Regex) (c : Char) (s : List Char) :
    Regex.Matches (.star a) (c :: s) ↔
      ∃ s₁ s₂, s = s₁ ++ s₂ ∧ Regex.Matches a (c :: s₁) ∧ Regex.Matches (.star a) s₂ := by
  constructor
  · intro h; exact Regex.matches_star_cons_aux _ _ h a c s rfl rfl
  · rintro ⟨s₁, s₂, rfl, h₁, h₂⟩
    exact .starCons a (c :: s₁) s₂ h₁ h₂

theorem Regex.deriv_iff (r : Regex) (c : Char) :
    ∀ s, Regex.Matches (r.deriv c) s ↔ Regex.Matches r (c :: s) := by
  induction r with
  | nothing => intro s; simp [Regex.deriv, Regex.matches_nothing]
  | eps => intro s; simp [Regex.deriv, Regex.matches_nothing, Regex.matches_eps_iff]
  | cls p =>
    intro s
    simp only [Regex.deriv, Regex.matches_cls_iff]
    by_cases hp : p c = true
    · rw [if_pos hp]
      simp only [Regex.matches_eps_iff]
      constructor
      · rintro rfl; exact ⟨c, rfl, hp⟩
      · rintro ⟨c', h, _⟩; simp only [List.cons.injEq] at h; exact h.2
    · rw [if_neg hp]
      simp only [Regex.matches_nothing, false_iff]
      rintro ⟨c', h, hc'⟩
      simp only [List.cons.injEq] at h
      rw [← h.1] at hc'; exact hp hc'
  | seq a b iha ihb =>
    intro s
    have key : Regex.Matches (.seq a b) (c :: s) ↔
        (Regex.Matches a [] ∧ Regex.Matches b (c :: s)) ∨
          ∃ s₁ s₂, s = s₁ ++ s₂ ∧ Regex.Matches a (c :: s₁) ∧ Regex.Matches b s₂ := by
      rw [Regex.matches_seq_iff]
      constructor
      · rintro ⟨s₁, s₂, h, h₁, h₂⟩
        cases s₁ with
        | nil => left; simp only [List.nil_append] at h; rw [h]; exact ⟨h₁, h₂⟩
        | cons x xs =>
          right
          simp only [List.cons_append, List.cons.injEq] at h
          obtain ⟨rfl, rfl⟩ := h
          exact ⟨xs, s₂, rfl, h₁, h₂⟩
      · rintro (⟨h₁, h₂⟩ | ⟨s₁, s₂, rfl, h₁, h₂⟩)
        · exact ⟨[], c :: s, rfl, h₁, h₂⟩
        · exact ⟨c :: s₁, s₂, rfl, h₁, h₂⟩
    rw [key]
    simp only [Regex.deriv]
    by_cases hn : a.nullable = true
    · have hn' := (Regex.nullable_iff a).1 hn
      rw [if_pos hn]
      simp only [Regex.matches_alt_iff, Regex.matches_seq_iff, iha, ihb]
      constructor
      · rintro (h | h)
        · exact .inr h
        · exact .inl ⟨hn', h⟩
      · rintro (⟨_, h⟩ | h)
        · exact .inr h
        · exact .inl h
    · have hn' : ¬ Regex.Matches a [] := fun h => hn ((Regex.nullable_iff a).2 h)
      rw [if_neg hn]
      simp only [Regex.matches_seq_iff, iha]
      constructor
      · intro h; exact .inr h
      · rintro (⟨h, _⟩ | h)
        · exact absurd h hn'
        · exact h
  | alt a b iha ihb =>
    intro s
    simp only [Regex.deriv, Regex.matches_alt_iff, iha, ihb]
  | star a iha =>
    intro s
    simp only [Regex.deriv, Regex.matches_seq_iff, iha, Regex.matches_star_cons_iff]

theorem Regex.matchFrom_iff (s : List Char) :
    ∀ r : Regex, r.matchFrom s = true ↔ Regex.Matches r s := by
  induction s with
  | nil => intro r; simpa [Regex.matchFrom] using Regex.nullable_iff r
  | cons c cs ih => intro r; simp only [Regex.matchFrom, ih, Regex.deriv_iff]

/-! ## The email expression and the validation rules -/

theorem Regex.matches_star_cls_iff (p : Char → Bool) (s : List Char) :
    Regex.Matches (.star (.cls p)) s ↔ ∀ x ∈ s, p x = true := by
  induction s with
  | nil => simp only [List.not_mem_nil, false_imp_iff, implies_true, iff_true]; exact .starNil _
  | cons c cs ih =>
    rw [Regex.matches_star_cons_iff]
    simp only [Regex.matches_cls_iff, List.cons.injEq, List.mem_cons, forall_eq_or_imp]
    constructor
    · rintro ⟨s₁, s₂, rfl, ⟨c', ⟨rfl, h₁⟩, hc⟩, h₂⟩
      subst h₁
      exact ⟨hc, by simpa using ih.1 h₂⟩
    · rintro ⟨hc, h⟩
      exact ⟨[], cs, rfl, ⟨c, ⟨rfl, rfl⟩, hc⟩, ih.2 h⟩

theorem Regex.matches_plus_cls_iff (p : Char → Bool) (s : List Char) :
    Regex.Matches (Regex.plus (.cls p)) s ↔ s ≠ [] ∧ ∀ x ∈ s, p x = true := by
  simp only [Regex.plus, Regex.matches_seq_iff, Regex.matches_cls_iff,
    Regex.matches_star_cls_iff]
  constructor
  · rintro ⟨s₁, s₂, rfl, ⟨c, rfl, hc⟩, h⟩
    refine ⟨by simp, ?_⟩
    intro x hx
    simp only [List.singleton_append, List.mem_cons] at hx
    rcases hx with rfl | hx
    · exact hc
    · exact h x hx
  · rintro ⟨hne, h⟩
    cases s with
    | nil => exact absurd rfl hne
    | cons c cs =>
      exact ⟨[c], cs, rfl, ⟨c, rfl, h c (List.mem_cons_self _ _)⟩,
        fun x hx => h x (List.mem_cons_of_mem _ hx)⟩

theorem Regex.matches_chr_iff (c : Char) (s : List Char) :
    Regex.Matches (Regex.chr c) s ↔ s = [c] := by
  simp only [Regex.chr, Regex.matches_cls_iff, beq_iff_eq]
  constructor
  · rintro ⟨c', rfl, rfl⟩; rfl
  · rintro rfl; exact ⟨c, rfl, rfl⟩

theorem notSpaceAt_iff (c : Char) : notSpaceAt c = true ↔ NonSpaceNonAt c := by
  simp [notSpaceAt, NonSpaceNonAt]

/-- The source's email expression accepts exactly the lists of the pattern whose
three segments are all free of whitespace and `@`. -/
theorem emailRegex_matches_iff (l : List Char) :
    emailRegex.matchFrom l = true ↔ EmailPattern l := by
  rw [Regex.matchFrom_iff]
  simp only [emailRegex, EmailPattern, Regex.matches_seq_iff, Regex.matches_plus_cls_iff,
    Regex.matches_chr_iff, notSpaceAt_iff]
  constructor
  · rintro ⟨a, r₁, rfl, ⟨ha, ha'⟩, x, r₂, rfl, rfl, b, r₃, rfl, ⟨hb, hb'⟩, y, c, rfl, rfl,
      hc, hc'⟩
    exact ⟨a, b, c, by simp, ha, hb, hc, ha', hb', hc'⟩
  · rintro ⟨a, b, c, rfl, ha, hb, hc, ha', hb', hc'⟩
    exact ⟨a, _, rfl, ⟨ha, ha'⟩, ['@'], _, rfl, rfl, b, _, rfl, ⟨hb, hb'⟩, ['.'], c, rfl, rfl,
      hc, hc'⟩

theorem emailPattern_ne_nil (l : List Char) (h : EmailPattern l) : l ≠ [] := by
  obtain ⟨a, b, c, rfl, ha, -⟩ := h
  simp [ha]

theorem trimChars_nil : trimChars [] = [] := rfl

/-- The condition of the first `if` of `User.validate` is the negation of the name
rule. -/
theorem nameRule_iff (v : JsVal) :
    NameRule v ↔
      (!v.truthy || !v.isString || (trim v.asString).length == 0) = false := by
  cases v with
  | str s =>
    simp only [NameRule, JsVal.str.injEq, JsVal.truthy, JsVal.isString, JsVal.asString,
      Bool.not_not, Bool.not_true, Bool.or_false, Bool.or_eq_false_iff, trim, String.length,
      beq_eq_false_iff_ne, ne_eq, List.length_eq_zero, List.isEmpty_iff]
    constructor
    · rintro ⟨s', rfl, h⟩
      refine ⟨?_, h⟩
      by_cases hs : s.data = []
      · rw [hs] at h; exact absurd trimChars_nil h
      · simpa using hs
    · rintro ⟨_, h⟩; exact ⟨s, rfl, h⟩
  | _ => simp [NameRule, JsVal.truthy, JsVal.isString]

/-- The conditions of the second `if` of `User.validate` are the negation of the
email rule. -/
theorem emailRule_iff (v : JsVal) :
    EmailRule v ↔
      (!v.truthy || !v.isString) = false ∧ emailRegex.test v.asString = true := by
  cases v with
  | str s =>
    simp only [EmailRule, JsVal.str.injEq, JsVal.truthy, JsVal.isString, JsVal.asString,
      Bool.not_not, Bool.not_true, Bool.or_false, Regex.test, emailRegex_matches_iff]
    constructor
    · rintro ⟨s', rfl, h⟩
      exact ⟨by simpa using emailPattern_ne_nil _ h, h⟩
    · rintro ⟨_, h⟩; exact ⟨s, rfl, h⟩
  | _ => simp [EmailRule, JsVal.truthy, JsVal.isString]

/-- The errors `User.validate` collects, rule by rule. -/
theorem validate_errors (u : UserData) :
    (User.validate u).errors =
      (if (!u.name.truthy || !u.name.isString || (trim u.name.asString).length == 0) = true
       then ["Name is required and must be a non-empty string"] else []) ++
      (if (!u.email.truthy || !u.email.isString) = true then
         ["Email is required and must be a string"]
       else if emailRegex.test u.email.asString = true then []
       else ["Email must be a valid email address"]) := by
  simp only [User.validate, List.nil_append]
  by_cases h₁ : (!u.name.truthy || !u.name.isString || (trim u.name.asString).length == 0) = true
  · by_cases h₂ : (!u.email.truthy || !u.email.isString) = true
    · simp [h₁, h₂]
    · by_cases h₃ : emailRegex.test u.email.asString = true
      · simp [h₁, h₂, h₃]
      · simp [h₁, h₂, h₃]
  · by_cases h₂ : (!u.email.truthy || !u.email.isString) = true
    · simp [h₁, h₂]
    · by_cases h₃ : emailRegex.test u.email.asString = true
      · simp [h₁, h₂, h₃]
      · simp [h₁, h₂, h₃]

theorem validate_isValid (u : UserData) :
    (User.validate u).isValid = ((User.validate u).errors.length == 0) := rfl

/-- The errors of a record that keeps both rules. -/
theorem validate_errors_of_both (u : UserData) (hn : NameRule u.name) (he : EmailRule u.email) :
    (User.validate u).errors = [] := by
  rw [validate_errors]
  rw [nameRule_iff] at hn
  rw [emailRule_iff] at he
  simp [hn, he.1, he.2]

/-- The errors of a record that breaks the name rule only. -/
theorem validate_errors_of_name (u : UserData) (hn : ¬ NameRule u.name)
    (he : EmailRule u.email) :
    (User.validate u).errors = ["Name is required and must be a non-empty string"] := by
  rw [validate_errors]
  rw [nameRule_iff, Bool.not_eq_false] at hn
  rw [emailRule_iff] at he
  simp [hn, he.1, he.2]

/-- The errors of a record that breaks the email rule only: one of the two email
messages. -/
theorem validate_errors_of_email (u : UserData) (hn : NameRule u.name)
    (he : ¬ EmailRule u.email) :
    (User.validate u).errors =
      [if (!u.email.truthy || !u.email.isString) = true then
         "Email is required and must be a string"
       else "Email must be a valid email address"] := by
  rw [validate_errors]
  rw [nameRule_iff] at hn
  rw [emailRule_iff] at he
  by_cases h₂ : (!u.email.truthy || !u.email.isString) = true
  · simp [hn, h₂]
  · have h₃ : ¬ emailRegex.test u.email.asString = true := fun h =>
      he ⟨by simpa using h₂, h⟩
    simp [hn, h₂, h₃]

/-- The errors of a record that breaks both rules. -/
theorem validate_errors_of_neither (u : UserData) (hn : ¬ NameRule u.name)
    (he : ¬ EmailRule u.email) :
    (User.validate u).errors =
      ["Name is required and must be a non-empty string",
       if (!u.email.truthy || !u.email.isString) = true then
         "Email is required and must be a string"
       else "Email must be a valid email address"] := by
  rw [validate_errors]
  rw [nameRule_iff, Bool.not_eq_false] at hn
  rw [emailRule_iff] at he
  by_cases h₂ : (!u.email.truthy || !u.email.isString) = true
  · simp [hn, h₂]
  · have h₃ : ¬ emailRegex.test u.email.asString = true := fun h =>
      he ⟨by simpa using h₂, h⟩
    simp [hn, h₂, h₃]

/-- C1, as the claim states it, fails: with the name `Ann` and the email `a@b.c@d` the
name rule holds and the email matches the pattern in the specification's words
(final segment `c@d`, free of whitespace), yet `User.validate` returns
`isValid = false`. -/
theorem validate_spec_pattern_counterexample :
    NameRule (.str "Ann") ∧ SpecEmailPattern "a@b.c@d".data ∧
      (User.validate { name := .str "Ann", email := .str "a@b.c@d" }).isValid = false := by
  refine ⟨⟨"Ann", rfl, by decide⟩, ⟨['a'], ['b'], ['c', '@', 'd'], rfl, by decide, by decide,
    by decide, ?_, ?_, ?_⟩, by decide⟩
  · intro x hx
    simp only [List.mem_singleton] at hx
    subst hx; exact ⟨by decide, by decide⟩
  · intro x hx
    simp only [List.mem_singleton] at hx
    subst hx; exact ⟨by decide, by decide⟩
  · intro x hx
    simp only [List.mem_cons, List.mem_singleton, List.not_mem_nil, or_false] at hx
    rcases hx with rfl | rfl | rfl <;> (unfold NonSpace; decide)

/-- C1 (amended): for every candidate record, `User.validate` returns `isValid = true`
if and only if the name is a string that is non-empty after trimming whitespace
and the email is a string matching: one or more non-space/non-@ characters, `@`,
one or more non-space/non-@ characters, `.`, one or more non-space/non-@
characters. -/
theorem validate_isValid_iff (u : UserData) :
    (User.validate u).isValid = true ↔ NameRule u.name ∧ EmailRule u.email := by
  rw [validate_isValid]
  by_cases hn : NameRule u.name <;> by_cases he : EmailRule u.email
  · simp [validate_errors_of_both u hn he, hn, he]
  · simp [validate_errors_of_email u hn he, hn, he]
  · simp [validate_errors_of_name u hn he, hn, he]
  · simp [validate_errors_of_neither u hn he, hn, he]

/-- C2: for every candidate record the errors list of `User.validate` is empty if and
only if `isValid` is true, and its length is the number of violated rules: 0
when both rules hold, 1 when exactly one of the name rule and the email rule is
violated, 2 when both are; the name message is reported exactly when the name
rule is violated and an email message exactly when the email rule is, whatever
the other rule does. -/
theorem validate_errors_count (u : UserData) :
    ((User.validate u).errors = [] ↔ (User.validate u).isValid = true) ∧
    ((User.validate u).errors.length = 0 ↔ NameRule u.name ∧ EmailRule u.email) ∧
    ((User.validate u).errors.length = 1 ↔
      (¬ NameRule u.name ∧ EmailRule u.email) ∨ (NameRule u.name ∧ ¬ EmailRule u.email)) ∧
    ((User.validate u).errors.length = 2 ↔ ¬ NameRule u.name ∧ ¬ EmailRule u.email) ∧
    ("Name is required and must be a non-empty string" ∈ (User.validate u).errors ↔
      ¬ NameRule u.name) ∧
    (("Email is required and must be a string" ∈ (User.validate u).errors ∨
      "Email must be a valid email address" ∈ (User.validate u).errors) ↔
      ¬ EmailRule u.email) := by
  rw [validate_isValid]
  by_cases hn : NameRule u.name <;> by_cases he : EmailRule u.email
  · simp [validate_errors_of_both u hn he, hn, he]
  · rw [validate_errors_of_email u hn he]
    by_cases h₂ : (!u.email.truthy || !u.email.isString) = true
    · simp only [h₂, if_true]; simp [hn, he]
    · simp only [h₂]; simp [hn, he]
  · simp [validate_errors_of_name u hn he, hn, he]
  · rw [validate_errors_of_neither u hn he]
    by_cases h₂ : (!u.email.truthy || !u.email.isString) = true
    · simp only [h₂, if_true]; simp [hn, he]
    · simp only [h₂]; simp [hn, he]

/-! ## Creating a user -/

/-- C3 (the code at the failing input): the store holds Ann with the email
`ann@x.com`; a valid create request carries `ANN@X.com`, which normalizes to the
stored email. The handler looks up the email as sent, finds no row, and inserts
the normalized email: it responds 201 and the store then holds two users with
the email `ann@x.com`. -/
theorem createUser_case_variant_inserted :
    (User.validate { name := .str "Ann2", email := .str "ANN@X.com" }).isValid = true ∧
    JsVal.str (toLowerCase (trim "ANN@X.com")) ∈ annDb.rows.map (fun row => row.email) ∧
    (UserController.createUser memClient
        { body := ⟨[("name", .str "Ann2"), ("email", .str "ANN@X.com")]⟩ } ⟨annDb, []⟩).1 =
      .sent { status := 201,
              body := { success := true, message := some "User created successfully",
                        data := some (.user { id := 2, name := .str "Ann2",
                                              email := .str "ann@x.com", created_at := 1 }) } } ∧
    (UserController.createUser memClient
        { body := ⟨[("name", .str "Ann2"), ("email", .str "ANN@X.com")]⟩ } ⟨annDb, []⟩).2.db.rows =
      [{ id := 1, name := .str "Ann", email := .str "ann@x.com", created_at := 0 },
       { id := 2, name := .str "Ann2", email := .str "ann@x.com", created_at := 1 }] := by
  decide

/-- A record that `User.validate` accepts keeps both rules. -/
theorem rules_of_isValid (u : UserData) (hv : (User.validate u).isValid = true) :
    NameRule u.name ∧ EmailRule u.email := by
  rw [validate_isValid] at hv
  by_cases hn : NameRule u.name <;> by_cases he : EmailRule u.email
  · exact ⟨hn, he⟩
  · rw [validate_errors_of_email u hn he] at hv; simp at hv
  · rw [validate_errors_of_name u hn he] at hv; simp at hv
  · rw [validate_errors_of_neither u hn he] at hv; simp at hv

/-- A record that `User.validate` accepts has a string name and a string email. -/
theorem validate_strings (name email : JsVal)
    (hv : (User.validate { name := name, email := email }).isValid = true) :
    name = .str name.asString ∧ email = .str email.asString := by
  obtain ⟨⟨s, hs, -⟩, ⟨t, ht, -⟩⟩ := rules_of_isValid _ hv
  simp only at hs ht
  subst hs; subst ht
  exact ⟨rfl, rfl⟩

/-- C4: for every create request that passes validation and whose email lookup
finds no row (the store reports the no-rows code), `createUser` calls, after the
lookup, `User.create` exactly once, with the trimmed request name and the trimmed,
lowercased request email; and when the store's insert returns a record, the
response is 201 with that record. -/
theorem createUser_created {σ : Type} (c : Client σ) (req : Request) (w : World σ)
    (e : StoreError) (db₁ : σ)
    (hv : (User.validate { name := req.body.get "name",
                           email := req.body.get "email" }).isValid = true)
    (hfind : c.selectByEmail (req.body.get "email") w.db = (.error e, db₁))
    (hcode : e.code = "PGRST116") :
    (UserController.createUser c req w).2.calls =
      w.calls ++
        [.findByEmail (req.body.get "email"),
         .create { name := .str (trim (req.body.get "name").asString),
                   email := .str (toLowerCase (trim (req.body.get "email").asString)) }] ∧
    ∀ (newUser : User) (db₂ : σ),
      c.insert { name := .str (trim (req.body.get "name").asString),
                 email := .str (toLowerCase (trim (req.body.get "email").asString)) } db₁
          = (.data newUser, db₂) →
        (UserController.createUser c req w).1 =
          .sent { status := 201,
                  body := { success := true, message := some "User created successfully",
                            data := some (.user newUser) } } ∧
        (UserController.createUser c req w).2.db = db₂ := by
  obtain ⟨hn, he⟩ := validate_strings _ _ hv
  have hcreate : UserController.createUser c req w =
      match User.create c { name := .str (trim (req.body.get "name").asString),
                            email := .str (toLowerCase (trim (req.body.get "email").asString)) }
          { db := db₁, calls := w.calls ++ [.findByEmail (req.body.get "email")] } with
      | (.error error, w) => (.next error, w)
      | (.ok newUser, w) =>
        (.sent { status := 201,
                 body := { success := true, message := some "User created successfully",
                           data := some (.user newUser) } }, w) := by
    simp only [UserController.createUser, hv, Bool.not_true, Bool.false_eq_true, if_false,
      User.findByEmail, hfind, hcode, beq_self_eq_true, if_true]
    rw [hn, he]
    simp only [JsVal.callTrim, JsVal.asString]
  rw [hcreate]
  constructor
  · obtain ⟨r, db, hu⟩ : ∃ r db,
        User.create c { name := .str (trim (req.body.get "name").asString),
                        email := .str (toLowerCase (trim (req.body.get "email").asString)) }
          { db := db₁, calls := w.calls ++ [.findByEmail (req.body.get "email")] } =
        (r, { db := db,
              calls := (w.calls ++ [.findByEmail (req.body.get "email")]) ++
                [.create { name := .str (trim (req.body.get "name").asString),
                           email := .str (toLowerCase
                             (trim (req.body.get "email").asString)) }] }) := by
      simp only [User.create]
      rcases c.insert _ db₁ with ⟨_ | _, db⟩
      · exact ⟨_, db, rfl⟩
      · exact ⟨_, db, rfl⟩
    rw [hu]
    cases r <;> simp
  · intro newUser db₂ hins
    simp only [User.create, hins]
    exact ⟨trivial, trivial⟩

/-- C4 (witness): on the empty store, the request with name `Ann` and email
`ANN@X.com` makes the two calls `findByEmail("ANN@X.com")` and
`create` of `Ann` with `ann@x.com`, and is answered 201 with the returned email
`ann@x.com`. -/
theorem createUser_created_witness :
    (UserController.createUser memClient
        { body := ⟨[("name", .str "Ann"), ("email", .str "ANN@X.com")]⟩ }
        ⟨emptyDb, []⟩).2.calls =
      [.findByEmail (.str "ANN@X.com"),
       .create { name := .str "Ann", email := .str "ann@x.com" }] ∧
    (UserController.createUser memClient
        { body := ⟨[("name", .str "Ann"), ("email", .str "ANN@X.com")]⟩ } ⟨emptyDb, []⟩).1 =
      .sent { status := 201,
              body := { success := true, message := some "User created successfully",
                        data := some (.user { id := 1, name := .str "Ann",
                                              email := .str "ann@x.com", created_at := 0 }) } } :=
  ⟨(createUser_created memClient
      { body := ⟨[("name", .str "Ann"), ("email", .str "ANN@X.com")]⟩ } ⟨emptyDb, []⟩
      noRows emptyDb (by decide) (by decide) (by decide)).1,
   ((createUser_created memClient
      { body := ⟨[("name", .str "Ann"), ("email", .str "ANN@X.com")]⟩ } ⟨emptyDb, []⟩
      noRows emptyDb (by decide) (by decide) (by decide)).2
      { id := 1, name := .str "Ann", email := .str "ann@x.com", created_at := 0 }
      { rows := [{ id := 1, name := .str "Ann", email := .str "ann@x.com", created_at := 0 }],
        nextId := 2, clock := 1 } (by decide)).1⟩

/-! ## The id path parameter -/

theorem parseInt_of_isEmpty (s : String) (h : s.data.isEmpty = true) : parseInt s = none := by
  have hs : s.data = [] := by simpa using h
  simp [parseInt, hs]

theorem isEmpty_of_parseInt (s : String) (n : Int) (h : parseInt s = some n) :
    s.data.isEmpty = false := by
  cases hs : s.data.isEmpty with
  | false => rfl
  | true => rw [parseInt_of_isEmpty s hs] at h; cases h

/-- C5, as the claim states it, fails: the id `12abc` is not the text of an integer,
yet `parseInt` reads `12` from it, and `getUserById`, `updateUser` and `deleteUser`
each call `User.findById(12)` and answer 404, not 400. -/
theorem getUserById_trailing_garbage_reaches_store :
    isIntegerText "12abc" = false ∧
    UserController.getUserById memClient { params := { id := "12abc" } } ⟨annDb, []⟩ =
      (.sent (userNotFound "12abc"), ⟨annDb, [.findById 12]⟩) ∧
    UserController.updateUser memClient { params := { id := "12abc" } } ⟨annDb, []⟩ =
      (.sent (userNotFound "12abc"), ⟨annDb, [.findById 12]⟩) ∧
    UserController.deleteUser memClient { params := { id := "12abc" } } ⟨annDb, []⟩ =
      (.sent (userNotFound "12abc"), ⟨annDb, [.findById 12]⟩) ∧
    (userNotFound "12abc").status = 404 := by
  decide

/-- C5 (amended): for every id path parameter that `parseInt` cannot read an integer
from (`parseInt(id)` is `NaN`), `getUserById`, `updateUser` and `deleteUser` each
respond 400 with the message `Invalid user ID`, and leave the store and the log of
repository calls as they were: no `findById`, `update` or `delete` is made. -/
theorem invalid_id_rejected_before_store {σ : Type} (c : Client σ) (req : Request)
    (w : World σ) (h : parseInt req.params.id = none) :
    UserController.getUserById c req w = (.sent invalidUserId, w) ∧
    UserController.updateUser c req w = (.sent invalidUserId, w) ∧
    UserController.deleteUser c req w = (.sent invalidUserId, w) ∧
    invalidUserId.status = 400 ∧
    invalidUserId.body.error.map (fun e => e.message) = some "Invalid user ID" := by
  refine ⟨?_, ?_, ?_, rfl, rfl⟩
  · simp only [UserController.getUserById, h]; split <;> rfl
  · simp only [UserController.updateUser, h]; split <;> rfl
  · simp only [UserController.deleteUser, h]; split <;> rfl

/-- C5 (witness): the id `abc`. -/
theorem invalid_id_rejected_before_store_witness :
    parseInt "abc" = none ∧
    UserController.getUserById memClient { params := { id := "abc" } } ⟨annDb, []⟩ =
      (.sent invalidUserId, ⟨annDb, []⟩) ∧
    UserController.updateUser memClient { params := { id := "abc" } } ⟨annDb, []⟩ =
      (.sent invalidUserId, ⟨annDb, []⟩) ∧
    UserController.deleteUser memClient { params := { id := "abc" } } ⟨annDb, []⟩ =
      (.sent invalidUserId, ⟨annDb, []⟩) ∧
    invalidUserId.status = 400 ∧
    invalidUserId.body.error.map (fun e => e.message) = some "Invalid user ID" :=
  ⟨by decide,
   invalid_id_rejected_before_store memClient { params := { id := "abc" } } ⟨annDb, []⟩
     (by decide)⟩

/-! ## Updating a user -/

theorem or_of_falsy (a b : JsVal) (h : a.truthy = false) : a.or b = b := by
  simp [JsVal.or, h]

theorem or_of_truthy (a b : JsVal) (h : a.truthy = true) : a.or b = a := by
  simp [JsVal.or, h]

/-- C6, as the claim states it, fails: the request `PUT /users/1` with the body
`email: ""` supplies only an email, the existing name `Ann` is valid and the empty
email does not match the pattern, yet no validation runs: the handler sends an
empty update to the store and responds 200. -/
theorem updateUser_empty_email_not_validated :
    NameRule (.str "Ann") ∧ ¬ EmailRule (.str "") ∧
    UserController.updateUser memClient
        { params := { id := "1" }, body := ⟨[("email", .str "")]⟩ } ⟨annDb, []⟩ =
      (.sent { status := 200,
               body := { success := true, message := some "User updated successfully",
                         data := some (.user { id := 1, name := .str "Ann",
                                               email := .str "ann@x.com", created_at := 0 }) } },
       ⟨annDb, [.findById 1, .update 1 ⟨[]⟩]⟩) := by
  refine ⟨⟨"Ann", rfl, by decide⟩, ?_, by decide⟩
  rw [emailRule_iff]
  decide

/-- C6 (amended): for every existing user and every update request that supplies a
non-empty (truthy) email and no name (absent, or empty), `updateUser` validates the
merged record of the existing name and the supplied email; hence when the existing
name is valid and the supplied email breaks the email rule, the response is 400
with exactly one validation detail, an email one, and after `findById` no further
repository call is made: no update reaches the store. -/
theorem updateUser_email_only_revalidated {σ : Type} (c : Client σ) (req : Request)
    (w : World σ) (n : Int) (existingUser : User) (db₁ : σ)
    (hid : parseInt req.params.id = some n)
    (hfind : c.selectById n w.db = (.data existingUser, db₁))
    (hname : (req.body.get "name").truthy = false)
    (hemail : (req.body.get "email").truthy = true)
    (hn : NameRule existingUser.name)
    (he : ¬ EmailRule (req.body.get "email")) :
    UserController.updateUser c req w =
      (.sent { status := 400,
               body := { success := false,
                         error := some {
                           message := "Validation failed",
                           details := some (.list
                             (User.validate { name := existingUser.name,
                                              email := req.body.get "email" }).errors) } } },
       { db := db₁, calls := w.calls ++ [.findById n] }) ∧
    ((User.validate { name := existingUser.name, email := req.body.get "email" }).errors =
        ["Email is required and must be a string"] ∨
      (User.validate { name := existingUser.name, email := req.body.get "email" }).errors =
        ["Email must be a valid email address"]) := by
  have herr := validate_errors_of_email
    { name := existingUser.name, email := req.body.get "email" } hn he
  have hinv :
      (User.validate
        { name := existingUser.name, email := req.body.get "email" }).isValid = false := by
    rw [validate_isValid, herr]; rfl
  constructor
  · simp only [UserController.updateUser, isEmpty_of_parseInt _ _ hid, hid, User.findById,
      hfind, or_of_falsy _ _ hname, or_of_truthy _ _ hemail, hname, hemail, hinv]
    simp
  · rw [herr]
    by_cases h₂ : (!(req.body.get "email").truthy || !(req.body.get "email").isString) = true
    · left; rw [if_pos h₂]
    · right; rw [if_neg h₂]

/-- C6 (witness): `PUT /users/1` with the body `email: "not-an-email"` on the store
holding Ann is answered 400 with the one detail that the email is not valid. -/
theorem updateUser_email_only_revalidated_witness :
    UserController.updateUser memClient
        { params := { id := "1" }, body := ⟨[("email", .str "not-an-email")]⟩ } ⟨annDb, []⟩ =
      (.sent { status := 400,
               body := { success := false,
                         error := some {
                           message := "Validation failed",
                           details := some (.list ["Email must be a valid email address"]) } } },
       ⟨annDb, [.findById 1]⟩) :=
  (updateUser_email_only_revalidated memClient
    { params := { id := "1" }, body := ⟨[("email", .str "not-an-email")]⟩ } ⟨annDb, []⟩
    1 { id := 1, name := .str "Ann", email := .str "ann@x.com", created_at := 0 } annDb
    (by decide) (by decide) (by decide) (by decide) ⟨"Ann", rfl, by decide⟩
    (by rw [emailRule_iff]; decide)).1

/-! ## The in-memory store -/

theorem single_eq_data (l : List User) (r : User) : single l = .data r ↔ l = [r] := by
  match l with
  | [] => simp [single]
  | [x] => simp [single]
  | x :: y :: t => simp [single]

theorem single_cases (l : List User) :
    (∃ r, l = [r] ∧ single l = .data r) ∨ single l = .error noRows := by
  match l with
  | [] => right; rfl
  | [x] => left; exact ⟨x, rfl, rfl⟩
  | x :: y :: t => right; rfl

/-- The method `User.findById` over the in-memory store: the row with this id when
there is exactly one, else `null`; the store is left as it was. -/
theorem findById_mem (n : Int) (w : World Db) :
    (∃ r, w.db.rows.filter (fun row => row.id == n) = [r] ∧
      User.findById memClient n w =
        (.ok (some r), { db := w.db, calls := w.calls ++ [.findById n] })) ∨
    User.findById memClient n w =
      (.ok none, { db := w.db, calls := w.calls ++ [.findById n] }) := by
  rcases single_cases (w.db.rows.filter (fun row => row.id == n)) with ⟨r, hr, hs⟩ | hs
  · left
    refine ⟨r, hr, ?_⟩
    simp only [User.findById, memClient, hs]
  · right
    simp only [User.findById, memClient, hs]
    rfl

/-- The method `User.findByEmail` over the in-memory store: the row with exactly this
email when there is exactly one, else `null`; the store is left as it was. -/
theorem findByEmail_mem (email : JsVal) (w : World Db) :
    (∃ r, w.db.rows.filter (fun row => email.isString && row.email == email) = [r] ∧
      User.findByEmail memClient email w =
        (.ok (some r), { db := w.db, calls := w.calls ++ [.findByEmail email] })) ∨
    User.findByEmail memClient email w =
      (.ok none, { db := w.db, calls := w.calls ++ [.findByEmail email] }) := by
  rcases single_cases (w.db.rows.filter (fun row => email.isString && row.email == email))
    with ⟨r, hr, hs⟩ | hs
  · left
    refine ⟨r, hr, ?_⟩
    simp only [User.findByEmail, memClient, hs]
  · right
    simp only [User.findByEmail, memClient, hs]
    rfl

/-- Whatever `sendUpdate` sends has status 200. -/
theorem sendUpdate_status {σ : Type} (c : Client σ) (n : Int) (updateData : JsObject)
    (w w' : World σ) (res : Response)
    (h : UserController.sendUpdate c n updateData w = (.sent res, w')) : res.status = 200 := by
  simp only [UserController.sendUpdate] at h
  split at h
  · simp at h
  · split at h
    · simp at h
    · split at h
      · simp at h
      · simp only [Prod.mk.injEq, Outcome.sent.injEq] at h
        rw [← h.1]

theorem strictNe_self_str (s : String) : (JsVal.str s).strictNe (.str s) = false := by
  simp [JsVal.strictNe]

/-- C7: over the store with exact-equality lookup, whenever `updateUser` answers 409
the request carries an email that differs from the current email of the user being
updated, and `findByEmail` on that email resolved to a stored record with a
different id; a lookup that resolves to the record being updated never yields the
conflict response. -/
theorem updateUser_conflict_only_with_other (req : Request) (w w' : World Db)
    (res : Response)
    (h : UserController.updateUser memClient req w = (.sent res, w'))
    (hs : res.status = 409) :
    ∃ (n : Int) (existingUser other : User),
      parseInt req.params.id = some n ∧
      (User.findById memClient n w).1 = .ok (some existingUser) ∧
      existingUser.id = n ∧
      (req.body.get "email").strictNe existingUser.email = true ∧
      (User.findByEmail memClient (req.body.get "email")
          (User.findById memClient n w).2).1 = .ok (some other) ∧
      other ∈ w.db.rows ∧
      other.email = req.body.get "email" ∧
      other.id ≠ existingUser.id := by
  simp only [UserController.updateUser] at h
  split at h
  · simp only [Prod.mk.injEq, Outcome.sent.injEq] at h
    rw [← h.1] at hs; simp [userNotFound, invalidUserId] at hs
  · cases hp : parseInt req.params.id with
    | none =>
      simp only [hp, Prod.mk.injEq, Outcome.sent.injEq] at h
      rw [← h.1] at hs; simp [userNotFound, invalidUserId] at hs
    | some n =>
      simp only [hp] at h
      rcases findById_mem n w with ⟨existingUser, hrow, hf⟩ | hf
      · simp only [hf] at h
        split at h
        · simp only [Prod.mk.injEq, Outcome.sent.injEq] at h
          rw [← h.1] at hs; simp [userNotFound, invalidUserId] at hs
        · split at h
          · rename_i hcond
            simp only [Bool.and_eq_true] at hcond
            rcases findByEmail_mem (req.body.get "email")
              { db := w.db, calls := w.calls ++ [.findById n] } with ⟨other, horow, hfe⟩ | hfe
            · have hmem : other ∈ w.db.rows.filter
                  (fun row => (req.body.get "email").isString && row.email == req.body.get "email") := by
                simp only at horow
                rw [horow]; exact List.mem_singleton.2 rfl
              rw [List.mem_filter] at hmem
              obtain ⟨hin, hprop⟩ := hmem
              simp only [Bool.and_eq_true, beq_iff_eq] at hprop
              have hex : existingUser ∈ w.db.rows.filter (fun row => row.id == n) := by
                rw [hrow]; exact List.mem_singleton.2 rfl
              rw [List.mem_filter] at hex
              have hexid : existingUser.id = n := by simpa using hex.2
              refine ⟨n, existingUser, other, rfl, by rw [hf], hexid, hcond.2, ?_, hin,
                hprop.2, ?_⟩
              · rw [hf, hfe]
              · intro hid
                have hoin : other ∈ w.db.rows.filter (fun row => row.id == n) := by
                  rw [List.mem_filter]
                  exact ⟨hin, by simp [hid, hexid]⟩
                rw [hrow, List.mem_singleton] at hoin
                subst hoin
                have hstr := hprop.1
                have hne := hcond.2
                rw [← hprop.2] at hne hstr
                cases hoe : other.email with
                | str s => rw [hoe] at hne; rw [strictNe_self_str] at hne; cases hne
                | _ => rw [hoe] at hstr; simp [JsVal.isString] at hstr
            · simp only [hfe] at h
              exact absurd (sendUpdate_status _ _ _ _ _ _ h) (by rw [hs]; decide)
          · exact absurd (sendUpdate_status _ _ _ _ _ _ h) (by rw [hs]; decide)
      · simp only [hf, Prod.mk.injEq, Outcome.sent.injEq] at h
        rw [← h.1] at hs; simp [userNotFound, invalidUserId] at hs

/-- C7 (witness): on the store holding Ann and Bob, `PUT /users/2` with Ann's email is
answered 409, and the lookup resolved to Ann, whose id is not 2. -/
theorem updateUser_conflict_only_with_other_witness :
    ∃ (n : Int) (existingUser other : User),
      parseInt "2" = some n ∧
      (User.findById memClient n ⟨annBobDb, []⟩).1 = .ok (some existingUser) ∧
      existingUser.id = n ∧
      (JsVal.str "ann@x.com").strictNe existingUser.email = true ∧
      (User.findByEmail memClient (.str "ann@x.com")
          (User.findById memClient n ⟨annBobDb, []⟩).2).1 = .ok (some other) ∧
      other ∈ annBobDb.rows ∧
      other.email = .str "ann@x.com" ∧
      other.id ≠ existingUser.id :=
  updateUser_conflict_only_with_other
    { params := { id := "2" }, body := ⟨[("email", .str "ann@x.com")]⟩ } ⟨annBobDb, []⟩
    ⟨annBobDb, [.findById 2, .findByEmail (.str "ann@x.com")]⟩
    { status := 409,
      body := { success := false,
                error := some { message := "Email already exists",
                                details := some (.text "Another user with this email already exists") } } }
    (by decide) (by decide)

/-! ## The update payload -/

theorem findById_calls {σ : Type} (c : Client σ) (n : Int) (w : World σ) :
    ∃ r db, User.findById c n w = (r, { db := db, calls := w.calls ++ [.findById n] }) := by
  simp only [User.findById]
  rcases c.selectById n w.db with ⟨_ | e, db⟩
  · exact ⟨_, db, rfl⟩
  · by_cases hc : (e.code == "PGRST116") = true
    · exact ⟨.ok none, db, by simp only [hc, if_true]⟩
    · exact ⟨.error (databaseError e), db, by simp only [hc]; rfl⟩

theorem findByEmail_calls {σ : Type} (c : Client σ) (email : JsVal) (w : World σ) :
    ∃ r db, User.findByEmail c email w =
      (r, { db := db, calls := w.calls ++ [.findByEmail email] }) := by
  simp only [User.findByEmail]
  rcases c.selectByEmail email w.db with ⟨_ | e, db⟩
  · exact ⟨_, db, rfl⟩
  · by_cases hc : (e.code == "PGRST116") = true
    · exact ⟨.ok none, db, by simp only [hc, if_true]⟩
    · exact ⟨.error (databaseError e), db, by simp only [hc]; rfl⟩

theorem update_calls {σ : Type} (c : Client σ) (n : Int) (p : JsObject) (w : World σ) :
    ∃ r db, User.update c n p w = (r, { db := db, calls := w.calls ++ [.update n p] }) := by
  simp only [User.update]
  rcases c.update n p w.db with ⟨_ | e, db⟩
  · exact ⟨_, db, rfl⟩
  · exact ⟨_, db, rfl⟩

theorem callTrim_ok (v : JsVal) (s : String) (h : v.callTrim = .ok s) :
    v = .str v.asString ∧ s = trim v.asString := by
  cases v <;> simp [JsVal.callTrim] at h
  exact ⟨rfl, h.symm⟩

/-- The log after `sendUpdate`: as before, or one more call, `User.update` with the
sparse payload; in the latter case a truthy name or email is a string. -/
theorem sendUpdate_calls {σ : Type} (c : Client σ) (n : Int) (body : JsObject)
    (w : World σ) :
    (UserController.sendUpdate c n body w).2.calls = w.calls ∨
    ((UserController.sendUpdate c n body w).2.calls =
        w.calls ++ [.update n (sparsePayload body)] ∧
      ((body.get "name").truthy = true → (body.get "name").isString = true) ∧
      ((body.get "email").truthy = true → (body.get "email").isString = true)) := by
  simp only [UserController.sendUpdate]
  cases hn : (body.get "name").truthy <;> cases he : (body.get "email").truthy
  · obtain ⟨r, db, hu⟩ := update_calls c n ⟨[]⟩ w
    right
    simp only [Bool.false_eq_true, if_false, hu, sparsePayload, hn, he, List.append_nil]
    refine ⟨?_, by simp, by simp⟩
    cases r <;> rfl
  · simp only [Bool.false_eq_true, if_false, if_true]
    cases ht : (body.get "email").callTrim with
    | error e => left; rfl
    | ok s =>
      obtain ⟨hstr, hs⟩ := callTrim_ok _ _ ht
      obtain ⟨r, db, hu⟩ := update_calls c n
        ((⟨[]⟩ : JsObject).set "email" (.str (toLowerCase s))) w
      right
      simp only [Except.map, hu]
      refine ⟨?_, by simp, fun _ => by rw [hstr]; rfl⟩
      simp only [sparsePayload, hn, he, hs, JsObject.set]
      cases r <;> rfl
  · simp only [Bool.false_eq_true, if_false, if_true]
    cases ht : (body.get "name").callTrim with
    | error e => left; rfl
    | ok s =>
      obtain ⟨hstr, hs⟩ := callTrim_ok _ _ ht
      obtain ⟨r, db, hu⟩ := update_calls c n
        ((⟨[]⟩ : JsObject).set "name" (.str s)) w
      right
      simp only [Except.map, hu]
      refine ⟨?_, fun _ => by rw [hstr]; rfl, by simp⟩
      simp only [sparsePayload, hn, he, hs, JsObject.set]
      cases r <;> rfl
  · simp only [if_true]
    cases ht : (body.get "name").callTrim with
    | error e => left; rfl
    | ok s =>
      obtain ⟨hstr, hs⟩ := callTrim_ok _ _ ht
      simp only [Except.map]
      cases ht' : (body.get "email").callTrim with
      | error e => left; rfl
      | ok s' =>
        obtain ⟨hstr', hs'⟩ := callTrim_ok _ _ ht'
        obtain ⟨r, db, hu⟩ := update_calls c n
          (((⟨[]⟩ : JsObject).set "name" (.str s)).set "email" (.str (toLowerCase s'))) w
        right
        simp only [hu]
        refine ⟨?_, fun _ => by rw [hstr]; rfl, fun _ => by rw [hstr']; rfl⟩
        have hp : ((⟨[]⟩ : JsObject).set "name" (.str s)).set "email" (.str (toLowerCase s'))
            = sparsePayload body := by
          have hkey : (("name" : String) != "email") = true := by decide
          simp [sparsePayload, hn, he, hs, hs', JsObject.set, List.filter, hkey]
        rw [hp]
        cases r <;> rfl

theorem sparsePayload_keys (body : JsObject) :
    (sparsePayload body).keys ⊆ ["name", "email"] ∧
    ("name" ∈ (sparsePayload body).keys ↔ (body.get "name").truthy = true) ∧
    ("email" ∈ (sparsePayload body).keys ↔ (body.get "email").truthy = true) := by
  cases hn : (body.get "name").truthy <;> cases he : (body.get "email").truthy <;>
    simp [sparsePayload, JsObject.keys, hn, he]

/-- An update call in the log after `sendUpdate`, when there was none before, is the
call with the sparse payload. -/
theorem sendUpdate_update_call {σ : Type} (c : Client σ) (n id : Int) (body p : JsObject)
    (w : World σ) (hw : ∀ i q, Call.update i q ∉ w.calls)
    (h : Call.update id p ∈ (UserController.sendUpdate c n body w).2.calls) :
    id = n ∧ p = sparsePayload body ∧
      ((body.get "name").truthy = true → (body.get "name").isString = true) ∧
      ((body.get "email").truthy = true → (body.get "email").isString = true) := by
  rcases sendUpdate_calls c n body w with hc | ⟨hc, h₁, h₂⟩
  · rw [hc] at h; exact absurd h (hw id p)
  · rw [hc, List.mem_append] at h
    rcases h with h | h
    · exact absurd h (hw id p)
    · simp only [List.mem_singleton, Call.update.injEq] at h
      exact ⟨h.1, h.2, h₁, h₂⟩

theorem applyFields_empty (row : User) : applyFields ⟨[]⟩ row = row := by
  simp [applyFields]

/-- An update with the empty payload leaves the in-memory table as it was. -/
theorem memClient_update_empty (n : Int) (db : Db) :
    memClient.update n ⟨[]⟩ db = (single (db.rows.filter (fun row => row.id == n)), db) := by
  have hmap : db.rows.map (fun row => if row.id == n then applyFields ⟨[]⟩ row else row)
      = db.rows := by
    conv_rhs => rw [← List.map_id db.rows]
    apply List.map_congr_left
    intro row _
    simp [applyFields_empty]
  simp only [memClient, hmap]

/-- C8, as the claim states it, fails: on the store holding Ann, `PUT /users/1` with
`name: ""` and `email: "New@x.com"` supplies both fields and passes the validation
and conflict checks, yet the payload handed to `User.update` holds the email
alone. -/
theorem updateUser_empty_name_left_out :
    (⟨[("name", .str ""), ("email", .str "New@x.com")]⟩ : JsObject).keys = ["name", "email"] ∧
    UserController.updateUser memClient
        { params := { id := "1" },
          body := ⟨[("name", .str ""), ("email", .str "New@x.com")]⟩ } ⟨annDb, []⟩ =
      (.sent { status := 200,
               body := { success := true, message := some "User updated successfully",
                         data := some (.user { id := 1, name := .str "Ann",
                                               email := .str "new@x.com", created_at := 0 }) } },
       ⟨{ rows := [{ id := 1, name := .str "Ann", email := .str "new@x.com", created_at := 0 }],
          nextId := 2, clock := 1 },
        [.findById 1, .findByEmail (.str "New@x.com"),
         .update 1 ⟨[("email", .str "new@x.com")]⟩]⟩) := by
  decide

/-- C8 (amended): every payload `updateUser` hands to `User.update` is for the parsed
id and contains exactly the fields among `name` and `email` that the request
supplied with a non-empty (truthy) value, which is then a string, with the name
trimmed and the email trimmed and lowercased, and no other key; and when the
request supplies no such name or email for an existing user, the payload is
empty, the in-memory table is left as it was, and the response is 200 with that
user. -/
theorem updateUser_sparse_payload :
    (∀ (σ : Type) (c : Client σ) (db : σ) (req : Request) (id : Int) (p : JsObject),
      Call.update id p ∈ (UserController.updateUser c req ⟨db, []⟩).2.calls →
        parseInt req.params.id = some id ∧ p = sparsePayload req.body ∧
        p.keys ⊆ ["name", "email"] ∧
        ("name" ∈ p.keys ↔ (req.body.get "name").truthy = true) ∧
        ("email" ∈ p.keys ↔ (req.body.get "email").truthy = true) ∧
        ((req.body.get "name").truthy = true → (req.body.get "name").isString = true) ∧
        ((req.body.get "email").truthy = true → (req.body.get "email").isString = true)) ∧
    (∀ (db : Db) (req : Request) (n : Int) (existingUser : User),
      parseInt req.params.id = some n →
      db.rows.filter (fun row => row.id == n) = [existingUser] →
      (req.body.get "name").truthy = false →
      (req.body.get "email").truthy = false →
        UserController.updateUser memClient req ⟨db, []⟩ =
          (.sent { status := 200,
                   body := { success := true, message := some "User updated successfully",
                             data := some (.user existingUser) } },
           ⟨db, [.findById n, .update n ⟨[]⟩]⟩)) := by
  constructor
  · intro σ c db req id p h
    have hkeys := sparsePayload_keys req.body
    suffices hs : parseInt req.params.id = some id ∧ p = sparsePayload req.body ∧
        ((req.body.get "name").truthy = true → (req.body.get "name").isString = true) ∧
        ((req.body.get "email").truthy = true → (req.body.get "email").isString = true) by
      obtain ⟨h₁, h₂, h₃, h₄⟩ := hs
      subst h₂
      exact ⟨h₁, rfl, hkeys.1, hkeys.2.1, hkeys.2.2, h₃, h₄⟩
    simp only [UserController.updateUser] at h
    split at h
    · simp at h
    · cases hp : parseInt req.params.id with
      | none => simp [hp] at h
      | some n =>
        simp only [hp] at h
        obtain ⟨r, db₁, hf⟩ := findById_calls c n ⟨db, []⟩
        simp only [hf] at h
        rcases r with e | _ | existingUser
        · simp at h
        · simp at h
        · simp only at h
          split at h
          · simp at h
          · split at h
            · obtain ⟨r₂, db₂, hfe⟩ := findByEmail_calls c (req.body.get "email")
                { db := db₁, calls := [] ++ [Call.findById n] }
              simp only [hfe] at h
              rcases r₂ with e | _ | other
              · simp at h
              · simp only at h
                obtain ⟨h₁, h₂, h₃⟩ := sendUpdate_update_call c n id req.body p _
                  (by simp) h
                exact ⟨by rw [h₁], h₂, h₃⟩
              · simp at h
            · obtain ⟨h₁, h₂, h₃⟩ := sendUpdate_update_call c n id req.body p _
                (by simp) h
              exact ⟨by rw [h₁], h₂, h₃⟩
  · intro db req n existingUser hid hrow hname hemail
    have hsel : memClient.selectById n db = (.data existingUser, db) := by
      simp only [memClient, hrow, single]
    have hupd : memClient.update n ⟨[]⟩ db = (.data existingUser, db) := by
      rw [memClient_update_empty, hrow]; rfl
    simp only [UserController.updateUser, isEmpty_of_parseInt _ _ hid, hid, User.findById,
      hsel, hname, hemail, UserController.sendUpdate, User.update]
    simp only [Bool.or_self, Bool.false_and, Bool.false_eq_true, if_false, List.nil_append,
      List.singleton_append]
    rw [hupd]

/-- C8 (witness): on the store holding Ann, `PUT /users/1` with `name: " Anna "` and
`email: "New@x.com"` hands `User.update` the name `Anna` and the email
`new@x.com`; and `PUT /users/1` with an empty body hands it the empty payload and
is answered 200 with Ann unchanged. -/
theorem updateUser_sparse_payload_witness :
    (parseInt "1" = some 1 ∧
      (⟨[("name", .str "Anna"), ("email", .str "new@x.com")]⟩ : JsObject) =
        sparsePayload ⟨[("name", .str " Anna "), ("email", .str "New@x.com")]⟩) ∧
    UserController.updateUser memClient { params := { id := "1" }, body := ⟨[]⟩ } ⟨annDb, []⟩ =
      (.sent { status := 200,
               body := { success := true, message := some "User updated successfully",
                         data := some (.user { id := 1, name := .str "Ann",
                                               email := .str "ann@x.com", created_at := 0 }) } },
       ⟨annDb, [.findById 1, .update 1 ⟨[]⟩]⟩) :=
  ⟨(fun h => ⟨h.1, h.2.1⟩)
    (updateUser_sparse_payload.1 Db memClient annDb
      { params := { id := "1" },
        body := ⟨[("name", .str " Anna "), ("email", .str "New@x.com")]⟩ }
      1 ⟨[("name", .str "Anna"), ("email", .str "new@x.com")]⟩ (by decide)),
   updateUser_sparse_payload.2 annDb { params := { id := "1" }, body := ⟨[]⟩ } 1
     { id := 1, name := .str "Ann", email := .str "ann@x.com", created_at := 0 }
     (by decide) (by decide) (by decide) (by decide)⟩

/-! ## Email uniqueness under sequential execution -/

/-- C9 (the code at the failing input): starting from the empty store, where emails
are trivially unique, two create requests processed one after the other, the
second with the email of the first in upper case, leave two users with the email
`ann@x.com`; and on the store holding Ann and Bob, one update request that sets
Bob's email to `ANN@X.com` leaves both users with the email `ann@x.com`. -/
theorem sequential_requests_break_uniqueness :
    EmailsUnique emptyDb ∧
    (runAll
      [.createUser { body := ⟨[("name", .str "Ann"), ("email", .str "ann@x.com")]⟩ },
       .createUser { body := ⟨[("name", .str "Ann2"), ("email", .str "ANN@X.com")]⟩ }]
      ⟨emptyDb, []⟩).db.rows =
      [{ id := 1, name := .str "Ann", email := .str "ann@x.com", created_at := 0 },
       { id := 2, name := .str "Ann2", email := .str "ann@x.com", created_at := 1 }] ∧
    ¬ EmailsUnique (runAll
      [.createUser { body := ⟨[("name", .str "Ann"), ("email", .str "ann@x.com")]⟩ },
       .createUser { body := ⟨[("name", .str "Ann2"), ("email", .str "ANN@X.com")]⟩ }]
      ⟨emptyDb, []⟩).db ∧
    EmailsUnique annBobDb ∧
    (runAll
      [.updateUser { params := { id := "2" }, body := ⟨[("email", .str "ANN@X.com")]⟩ }]
      ⟨annBobDb, []⟩).db.rows =
      [{ id := 1, name := .str "Ann", email := .str "ann@x.com", created_at := 0 },
       { id := 2, name := .str "Bob", email := .str "ann@x.com", created_at := 1 }] ∧
    ¬ EmailsUnique (runAll
      [.updateUser { params := { id := "2" }, body := ⟨[("email", .str "ANN@X.com")]⟩ }]
      ⟨annBobDb, []⟩).db := by
  decide!

/-! ## Store failures and the central error handler -/

theorem databaseError_message_nonempty (e : StoreError) :
    (databaseError e).message.data.isEmpty = false := by
  simp [databaseError, newError, String.data_append]

/-- C10: every failure reply of the store makes the repository method that received
it (`create`, `findById` and `findByEmail` unless the code is the no-rows code,
`update`, `delete`) throw the error with the message `Database error: ` followed by
the store's message; and for every such error, forwarded to `errorHandler`, the
response has status 500, `success = false` and the error's message, and it
carries a stack exactly when `NODE_ENV` is `development`, so never in production
mode. -/
theorem errorHandler_store_failure (e : StoreError) (NODE_ENV : Option String) :
    (databaseError e).message = "Database error: " ++ e.message ∧
    errorHandler (databaseError e) NODE_ENV =
      { status := 500,
        body := { success := false,
                  error := some { message := "Database error: " ++ e.message,
                                  stack := if NODE_ENV = some "development"
                                           then some (databaseError e).stack else none } } } ∧
    (NODE_ENV = some "production" →
      (errorHandler (databaseError e) NODE_ENV).body.error.bind (fun i => i.stack) = none) ∧
    (∀ (σ : Type) (c : Client σ) (w : World σ) (db₁ : σ),
      (∀ u, c.insert u w.db = (.error e, db₁) →
        (User.create c u w).1 = .error (databaseError e)) ∧
      (∀ n, c.selectById n w.db = (.error e, db₁) → e.code ≠ "PGRST116" →
        (User.findById c n w).1 = .error (databaseError e)) ∧
      (∀ req n, parseInt req.params.id = some n →
        c.selectById n w.db = (.error e, db₁) → e.code ≠ "PGRST116" →
        (UserController.getUserById c req w).1 = .next (databaseError e)) ∧
      (∀ m, c.selectByEmail m w.db = (.error e, db₁) → e.code ≠ "PGRST116" →
        (User.findByEmail c m w).1 = .error (databaseError e)) ∧
      (∀ n p, c.update n p w.db = (.error e, db₁) →
        (User.update c n p w).1 = .error (databaseError e)) ∧
      (∀ n, c.delete n w.db = (some e, db₁) →
        (User.delete c n w).1 = .error (databaseError e))) := by
  have hne := databaseError_message_nonempty e
  have hbody : errorHandler (databaseError e) NODE_ENV =
      { status := 500,
        body := { success := false,
                  error := some { message := "Database error: " ++ e.message,
                                  stack := if NODE_ENV = some "development"
                                           then some (databaseError e).stack else none } } } := by
    have hname₁ : ((databaseError e).name == "ValidationError") = false := by
      show (("Error" : String) == "ValidationError") = false
      decide
    have hname₂ : ((databaseError e).name == "CastError") = false := by
      show (("Error" : String) == "CastError") = false
      decide
    have hsc : (databaseError e).statusCode = none := rfl
    simp only [errorHandler, hne, hname₁, hname₂, hsc]
    simp [databaseError, newError]
  refine ⟨rfl, hbody, ?_, ?_⟩
  · intro hprod
    rw [hbody, hprod]
    simp
  · intro σ c w db₁
    refine ⟨?_, ?_, ?_, ?_, ?_, ?_⟩
    · intro u h; simp [User.create, h]
    · intro n h hc
      have hc' : (e.code == "PGRST116") = false := by simpa using hc
      simp [User.findById, h, hc']
    · intro req n hid h hc
      have hc' : (e.code == "PGRST116") = false := by simpa using hc
      simp [UserController.getUserById, isEmpty_of_parseInt _ _ hid, hid, User.findById, h, hc']
    · intro m h hc
      have hc' : (e.code == "PGRST116") = false := by simpa using hc
      simp [User.findByEmail, h, hc']
    · intro n p h; simp [User.update, h]
    · intro n h; simp [User.delete, h]

/-- C10 (witness): with the store down, `getUserById` forwards the repository's
error, and in development mode `errorHandler` answers it with status 500, the
error's message and the stack. -/
theorem errorHandler_store_failure_witness :
    errorHandler (databaseError { code := "08006", message := "connection failure" })
        (some "development") =
      { status := 500,
        body := { success := false,
                  error := some { message := "Database error: connection failure",
                                  stack := some "Error: Database error: connection failure" } } } ∧
    (UserController.getUserById downClient { params := { id := "1" } } ⟨(), []⟩).1 =
      .next (databaseError { code := "08006", message := "connection failure" }) :=
  ⟨(errorHandler_store_failure { code := "08006", message := "connection failure" }
      (some "development")).2.1,
   ((errorHandler_store_failure { code := "08006", message := "connection failure" }
      none).2.2.2 Unit downClient ⟨(), []⟩ ()).2.2.1 { params := { id := "1" } } 1
      (by decide) (by decide) (by decide)⟩

/-! ## Lowercasing and trimming -/

/-- Every run of the lowercase mapping passes its check: whatever a run maps to is
a character, neither whitespace nor `@`, that no run maps further. -/
theorem lowerRuns_checked : lowerRuns.all CaseRun.checked = true := by decide!

theorem toNat_ofNat_of_valid (m : Nat) (h : m.isValidChar) : (Char.ofNat m).toNat = m := by
  unfold Char.ofNat
  rw [dif_pos h]
  rfl

theorem covers_iff (r : CaseRun) (n : Nat) :
    r.covers n = true ↔ r.lo ≤ n ∧ n ≤ r.hi ∧ (n - r.lo) % r.step = 0 := by
  simp only [CaseRun.covers, Bool.and_eq_true, Nat.ble_eq, Nat.beq_eq, and_assoc]

/-- What a run maps a code point it covers to is among its images. -/
theorem image_mem (r : CaseRun) (n : Nat) (h : r.covers n = true) :
    r.target + (n - r.lo) ∈ r.images := by
  obtain ⟨h₁, h₂, h₃⟩ := (covers_iff r n).1 h
  simp only [CaseRun.images, List.mem_map, List.mem_range]
  refine ⟨(n - r.lo) / r.step, ?_, ?_⟩
  · exact Nat.lt_succ_of_le (Nat.div_le_div_right (by omega))
  · rw [Nat.div_mul_cancel (Nat.dvd_of_mod_eq_zero h₃)]

theorem image_bounds (r : CaseRun) (m : Nat) (h : m ∈ r.images) :
    r.target ≤ m ∧ m ≤ r.target + (r.hi - r.lo) := by
  simp only [CaseRun.images, List.mem_map, List.mem_range] at h
  obtain ⟨k, hk, rfl⟩ := h
  have h₁ : k * r.step ≤ (r.hi - r.lo) / r.step * r.step :=
    Nat.mul_le_mul_right _ (Nat.le_of_lt_succ hk)
  have h₂ := Nat.div_mul_le_self (r.hi - r.lo) r.step
  omega

theorem checked_of_mem (r : CaseRun) (hr : r ∈ lowerRuns) : r.checked = true :=
  List.all_eq_true.1 lowerRuns_checked r hr

/-- No run of the lowercase mapping covers an image of a run. -/
theorem image_not_covered (r r' : CaseRun) (hr : r ∈ lowerRuns) (hr' : r' ∈ lowerRuns)
    (m : Nat) (hm : m ∈ r.images) : r'.covers m = false := by
  have hc := checked_of_mem r hr
  simp only [CaseRun.checked, Bool.and_eq_true, List.all_eq_true] at hc
  have hclear := hc.2 r' hr'
  obtain ⟨hb₁, hb₂⟩ := image_bounds r m hm
  simp only [CaseRun.imagesClearOf, Bool.or_eq_true, Nat.blt_eq, List.all_eq_true,
    Bool.not_eq_true'] at hclear
  rcases hclear with (h | h) | h
  · cases hcov : r'.covers m with
    | false => rfl
    | true => have := (covers_iff r' m).1 hcov; omega
  · cases hcov : r'.covers m with
    | false => rfl
    | true => have := (covers_iff r' m).1 hcov; omega
  · exact h m hm

theorem find_some_holds (p : CaseRun → Bool) (l : List CaseRun) (r : CaseRun)
    (h : l.find? p = some r) : p r = true :=
  List.find?_some h

/-- The lowercase mapping leaves a code point as it is, or maps it to an image of a
run that covers it. -/
theorem lowerCode_cases (n : Nat) :
    lowerCode n = n ∨ ∃ r ∈ lowerRuns, lowerCode n ∈ r.images := by
  unfold lowerCode
  cases hf : lowerRuns.find? (fun r => r.covers n) with
  | none => left; rfl
  | some r =>
    right
    have hr := List.mem_of_find?_eq_some hf
    exact ⟨r, hr, image_mem r n (find_some_holds _ _ _ hf)⟩

/-- An image of a run is a fixed point of the lowercase mapping and a character that
is neither whitespace nor `@`. -/
theorem image_stable (r : CaseRun) (hr : r ∈ lowerRuns) (m : Nat) (hm : m ∈ r.images) :
    lowerCode m = m ∧ (Char.ofNat m).toNat = m ∧ isWhiteSpace (Char.ofNat m) = false ∧
      Char.ofNat m ≠ '@' := by
  have hc := checked_of_mem r hr
  simp only [CaseRun.checked, Bool.and_eq_true, List.all_eq_true] at hc
  have hp := hc.1 m hm
  simp only [isPlainCode, Bool.and_eq_true, decide_eq_true_eq, Bool.not_eq_true',
    beq_eq_false_iff_ne, ne_eq] at hp
  refine ⟨?_, toNat_ofNat_of_valid m hp.1.1, hp.1.2, hp.2⟩
  unfold lowerCode
  have hnone : lowerRuns.find? (fun r => r.covers m) = none := by
    rw [List.find?_eq_none]
    intro r' hr'
    rw [image_not_covered r r' hr hr' m hm]
    simp
  rw [hnone]

/-- The simple lowercase mapping of a character: the character itself, or a fixed
point of the mapping that is neither whitespace nor `@`. -/
theorem simpleLower_cases (c : Char) :
    simpleLower c = c ∨
      (simpleLower (simpleLower c) = simpleLower c ∧ isWhiteSpace (simpleLower c) = false ∧
        simpleLower c ≠ '@') := by
  rcases lowerCode_cases c.toNat with h | ⟨r, hr, hm⟩
  · left
    simp only [simpleLower, h, Char.ofNat_toNat]
  · right
    obtain ⟨h₁, h₂, h₃, h₄⟩ := image_stable r hr _ hm
    refine ⟨?_, h₃, h₄⟩
    show Char.ofNat (lowerCode (Char.ofNat (lowerCode c.toNat)).toNat) = _
    rw [h₂, h₁]
    rfl

theorem simpleLower_idem (c : Char) : simpleLower (simpleLower c) = simpleLower c := by
  rcases simpleLower_cases c with h | h
  · rw [h, h]
  · exact h.1

theorem simpleLower_plain (c : Char) (h : NonSpaceNonAt c) : NonSpaceNonAt (simpleLower c) := by
  rcases simpleLower_cases c with hc | hc
  · rw [hc]; exact h
  · exact ⟨hc.2.1, hc.2.2⟩

/-- A character that lowercasing leaves alone, whatever its context. -/
theorem lowerAt_of_fixed (before after : List Char) (c : Char) (h : simpleLower c = c) :
    lowerAt before c after = [c] := by
  have h₁ : c ≠ 'Σ' := by
    rintro rfl
    exact absurd h (by decide)
  have h₂ : c ≠ 'İ' := by
    rintro rfl
    exact absurd h (by decide)
  simp only [lowerAt, h₁, h₂, if_false, h]

/-- What lowercasing writes for one character: one or two characters, each a fixed
point of the simple mapping, and each free of whitespace and `@` when the
character is. -/
theorem lowerAt_spec (before after : List Char) (c : Char) :
    lowerAt before c after ≠ [] ∧
      (∀ x ∈ lowerAt before c after, simpleLower x = x) ∧
      (NonSpaceNonAt c → ∀ x ∈ lowerAt before c after, NonSpaceNonAt x) := by
  unfold lowerAt
  by_cases h₁ : c = 'Σ'
  · rw [if_pos h₁]
    by_cases hf : finalSigma before after = true
    · rw [if_pos hf]
      refine ⟨by simp, ?_, ?_⟩
      · intro x hx
        rw [List.mem_singleton] at hx
        subst hx; decide
      · intro _ x hx
        rw [List.mem_singleton] at hx
        subst hx; exact ⟨by decide, by decide⟩
    · rw [if_neg hf]
      refine ⟨by simp, ?_, ?_⟩
      · intro x hx
        rw [List.mem_singleton] at hx
        subst hx; decide
      · intro _ x hx
        rw [List.mem_singleton] at hx
        subst hx; exact ⟨by decide, by decide⟩
  · rw [if_neg h₁]
    by_cases h₂ : c = 'İ'
    · rw [if_pos h₂]
      refine ⟨by simp, ?_, ?_⟩
      · intro x hx
        simp only [List.mem_cons, List.mem_singleton, List.not_mem_nil, or_false] at hx
        rcases hx with rfl | rfl <;> decide
      · intro _ x hx
        simp only [List.mem_cons, List.mem_singleton, List.not_mem_nil, or_false] at hx
        rcases hx with rfl | rfl <;> exact ⟨by decide, by decide⟩
    · rw [if_neg h₂]
      refine ⟨by simp, ?_, ?_⟩
      · intro x hx
        rw [List.mem_singleton] at hx
        subst hx; exact simpleLower_idem c
      · intro hc x hx
        rw [List.mem_singleton] at hx
        subst hx; exact simpleLower_plain c hc

/-- Lowercasing leaves a list of fixed points of the simple mapping as it is. -/
theorem lowerChars_of_fixed (l : List Char) :
    ∀ before : List Char, (∀ x ∈ l, simpleLower x = x) → lowerChars before l = l := by
  induction l with
  | nil => intro _ _; rfl
  | cons c rest ih =>
    intro before h
    simp only [lowerChars]
    rw [lowerAt_of_fixed before rest c (h c (List.mem_cons_self _ _)),
      ih (c :: before) (fun x hx => h x (List.mem_cons_of_mem _ hx))]
    rfl

/-- Lowercasing writes only fixed points of the simple mapping. -/
theorem lowerChars_fixed (l : List Char) :
    ∀ before : List Char, ∀ x ∈ lowerChars before l, simpleLower x = x := by
  induction l with
  | nil => intro _ x hx; simp [lowerChars] at hx
  | cons c rest ih =>
    intro before x hx
    simp only [lowerChars, List.mem_append] at hx
    rcases hx with hx | hx
    · exact (lowerAt_spec before rest c).2.1 x hx
    · exact ih (c :: before) x hx

/-- Lowercasing twice is lowercasing once. -/
theorem toLowerCase_idem (s : String) : toLowerCase (toLowerCase s) = toLowerCase s := by
  simp only [toLowerCase]
  rw [lowerChars_of_fixed _ [] (lowerChars_fixed s.data [])]

/-- The lowercase conversion on sample strings: ASCII and accented capitals, the two
sigmas, the dotted capital I, and a letter outside the basic plane. -/
theorem toLowerCase_samples :
    toLowerCase "ANN@X.com" = "ann@x.com" ∧ toLowerCase "ÀNN@X.com" = "ànn@x.com" ∧
    toLowerCase "ΟΔΟΣ ΣΑΣ" = "οδος σας" ∧ (toLowerCase "İ").data = ['i', Char.ofNat 0x307] ∧
    toLowerCase "ẞ𐐀" = "ß𐐨" := by
  decide!

/-- Lowercasing a segment free of whitespace and `@` in front of a list: it becomes
a segment free of whitespace and `@`, non-empty when it was, and the rest of the
list is lowercased behind it. -/
theorem lowerChars_segment (seg : List Char) :
    ∀ (before rest : List Char), (∀ x ∈ seg, NonSpaceNonAt x) →
      ∃ seg' : List Char,
        lowerChars before (seg ++ rest) = seg' ++ lowerChars (seg.reverse ++ before) rest ∧
        (seg ≠ [] → seg' ≠ []) ∧ ∀ x ∈ seg', NonSpaceNonAt x := by
  induction seg with
  | nil => intro before rest _; exact ⟨[], rfl, fun h => h, by simp⟩
  | cons c cs ih =>
    intro before rest h
    obtain ⟨seg', h₁, -, h₃⟩ := ih (c :: before) rest
      (fun x hx => h x (List.mem_cons_of_mem _ hx))
    obtain ⟨hne, -, hplain⟩ := lowerAt_spec before (cs ++ rest) c
    refine ⟨lowerAt before c (cs ++ rest) ++ seg', ?_, ?_, ?_⟩
    · have hstep : lowerChars before (c :: (cs ++ rest)) =
          lowerAt before c (cs ++ rest) ++ lowerChars (c :: before) (cs ++ rest) := rfl
      rw [List.cons_append, hstep, h₁]
      simp
    · intro _ hnil
      exact hne (List.append_eq_nil.1 hnil).1
    · intro x hx
      rcases List.mem_append.1 hx with hx | hx
      · exact hplain (h c (List.mem_cons_self _ _)) x hx
      · exact h₃ x hx

theorem lowerChars_cons_fixed (before rest : List Char) (c : Char) (h : simpleLower c = c) :
    lowerChars before (c :: rest) = c :: lowerChars (c :: before) rest := by
  simp only [lowerChars, lowerAt_of_fixed before rest c h, List.singleton_append]

/-- Lowercasing keeps a list of characters in the email pattern. -/
theorem emailPattern_lowerChars (l : List Char) (h : EmailPattern l) :
    EmailPattern (lowerChars [] l) := by
  obtain ⟨a, b, c, rfl, ha, hb, hc, ha', hb', hc'⟩ := h
  obtain ⟨a₁, e₁, n₁, p₁⟩ := lowerChars_segment a [] ('@' :: (b ++ '.' :: c)) ha'
  obtain ⟨b₁, e₂, n₂, p₂⟩ := lowerChars_segment b ('@' :: (a.reverse ++ [])) ('.' :: c) hb'
  obtain ⟨c₁, e₃, n₃, p₃⟩ :=
    lowerChars_segment c ('.' :: (b.reverse ++ '@' :: (a.reverse ++ []))) [] hc'
  have hat : simpleLower '@' = '@' := by decide
  have hdot : simpleLower '.' = '.' := by decide
  refine ⟨a₁, b₁, c₁, ?_, n₁ ha, n₂ hb, n₃ hc, p₁, p₂, p₃⟩
  simp only [List.append_nil] at e₁ e₂ e₃
  rw [e₁, lowerChars_cons_fixed _ _ _ hat, e₂, lowerChars_cons_fixed _ _ _ hdot, e₃]
  simp [lowerChars]

theorem emailPattern_toLowerCase (s : String) (h : EmailPattern s.data) :
    EmailPattern (toLowerCase s).data :=
  emailPattern_lowerChars s.data h

theorem dropWhile_of_all_false (p : Char → Bool) (l : List Char)
    (h : ∀ x ∈ l, p x = false) : l.dropWhile p = l := by
  cases l with
  | nil => rfl
  | cons x xs => simp [List.dropWhile, h x (List.mem_cons_self _ _)]

/-- Trimming a list with no whitespace in it changes nothing. -/
theorem trimChars_of_nonSpace (l : List Char) (h : ∀ x ∈ l, isWhiteSpace x = false) :
    trimChars l = l := by
  simp only [trimChars]
  rw [dropWhile_of_all_false _ l h,
    dropWhile_of_all_false _ l.reverse (fun x hx => h x (List.mem_reverse.1 hx)),
    List.reverse_reverse]

theorem dropWhile_prefix_of_fixed (p : Char → Bool) (t m : List Char) (ht : t <+: m)
    (hm : m.dropWhile p = m) : t.dropWhile p = t := by
  cases t with
  | nil => rfl
  | cons x xs =>
    obtain ⟨r, hr⟩ := ht
    subst hr
    have hx : p x = false := by
      cases hpx : p x with
      | false => rfl
      | true =>
        exfalso
        have hsuf : ((x :: xs ++ r).dropWhile p).length ≤ (xs ++ r).length := by
          simp only [List.cons_append, List.dropWhile, hpx]
          exact (List.dropWhile_suffix p).length_le
        rw [hm] at hsuf
        simp at hsuf
    simp [List.dropWhile, hx]

/-- Trimming twice is trimming once. -/
theorem trimChars_idem (l : List Char) : trimChars (trimChars l) = trimChars l := by
  have hdef : ∀ k : List Char,
      trimChars k = (k.dropWhile isWhiteSpace).rdropWhile isWhiteSpace := fun _ => rfl
  have hfix : (trimChars l).dropWhile isWhiteSpace = trimChars l := by
    rw [hdef l]
    exact dropWhile_prefix_of_fixed _ _ _ (List.rdropWhile_prefix _ _)
      (List.dropWhile_idempotent _ _)
  rw [hdef (trimChars l), hfix, hdef l, List.rdropWhile_idempotent]

theorem trim_idem (s : String) : trim (trim s) = trim s := by
  simp only [trim, trimChars_idem]

theorem emailPattern_nonSpace (l : List Char) (h : EmailPattern l) :
    ∀ x ∈ l, isWhiteSpace x = false := by
  obtain ⟨a, b, c, rfl, -, -, -, ha, hb, hc⟩ := h
  intro x hx
  simp only [List.mem_append, List.mem_cons] at hx
  rcases hx with hx | rfl | hx | rfl | hx
  · exact (ha x hx).1
  · decide
  · exact (hb x hx).1
  · decide
  · exact (hc x hx).1

/-- Trimming is a no-op on a string in the email pattern. -/
theorem trim_of_emailPattern (s : String) (h : EmailPattern s.data) : trim s = s := by
  simp only [trim, trimChars_of_nonSpace _ (emailPattern_nonSpace _ h)]

/-- A record that keeps both rules is accepted by `User.validate`. -/
theorem isValid_of_rules (u : UserData) (hn : NameRule u.name) (he : EmailRule u.email) :
    (User.validate u).isValid = true := by
  rw [validate_isValid, validate_errors_of_both u hn he]
  rfl

/-- The name a handler writes for a request name that keeps the name rule: trimmed,
non-empty. -/
theorem written_name (name : JsVal) (hn : NameRule name) :
    (trim name.asString).data ≠ [] ∧ trim (trim name.asString) = trim name.asString := by
  obtain ⟨s, rfl, hs⟩ := hn
  exact ⟨hs, trim_idem s⟩

/-- The email a handler writes for a request email that keeps the email rule:
lowercase, still in the pattern. -/
theorem written_email (email : JsVal) (he : EmailRule email) :
    toLowerCase (toLowerCase (trim email.asString)) = toLowerCase (trim email.asString) ∧
      EmailPattern (toLowerCase (trim email.asString)).data := by
  obtain ⟨s, rfl, hs⟩ := he
  refine ⟨toLowerCase_idem _, ?_⟩
  simp only [JsVal.asString, trim_of_emailPattern s hs]
  exact emailPattern_toLowerCase s hs

/-- A well-formed user is accepted by `User.validate`. -/
theorem wellFormed_isValid (u : User) (h : WellFormedUser u) :
    NameRule u.name ∧ EmailRule u.email ∧
      (User.validate { name := u.name, email := u.email }).isValid = true := by
  obtain ⟨name, email, hn, he, hne, htrim, -, hpat⟩ := h
  have h₁ : NameRule u.name := ⟨name, hn, by rw [htrim]; exact hne⟩
  have h₂ : EmailRule u.email := ⟨email, he, hpat⟩
  exact ⟨h₁, h₂, isValid_of_rules _ h₁ h₂⟩

/-! ## Well-formedness of stored users -/

/-- The table after `createUser` over the in-memory store: as before, or, for a
request that passed validation, with one more row that carries the trimmed name
and the trimmed, lowercased email. -/
theorem createUser_mem_rows (req : Request) (w : World Db) :
    (UserController.createUser memClient req w).2.db.rows = w.db.rows ∨
    ((User.validate { name := req.body.get "name",
                      email := req.body.get "email" }).isValid = true ∧
      (UserController.createUser memClient req w).2.db.rows =
        w.db.rows ++
          [{ id := w.db.nextId,
             name := .str (trim (req.body.get "name").asString),
             email := .str (toLowerCase (trim (req.body.get "email").asString)),
             created_at := w.db.clock }]) := by
  cases hv : (User.validate { name := req.body.get "name",
                              email := req.body.get "email" }).isValid with
  | false => left; simp [UserController.createUser, hv]
  | true =>
    obtain ⟨hn, he⟩ := validate_strings _ _ hv
    rcases findByEmail_mem (req.body.get "email") w with ⟨r, -, hfe⟩ | hfe
    · left; simp [UserController.createUser, hv, hfe]
    · right
      refine ⟨rfl, ?_⟩
      simp only [UserController.createUser, hv, Bool.not_true, Bool.false_eq_true, if_false, hfe]
      rw [hn, he]
      simp [JsVal.callTrim, JsVal.asString, User.create, memClient]

/-- The two ends of `sendUpdate`: a `TypeError` forwarded with the world as it was, or
`User.update` called with the sparse payload, a truthy name or email then being
a string. -/
theorem sendUpdate_cases {σ : Type} (c : Client σ) (n : Int) (body : JsObject)
    (w : World σ) :
    (∃ e, UserController.sendUpdate c n body w = (.next e, w)) ∨
    ((UserController.sendUpdate c n body w).2 = (User.update c n (sparsePayload body) w).2 ∧
      ((body.get "name").truthy = true → (body.get "name").isString = true) ∧
      ((body.get "email").truthy = true → (body.get "email").isString = true)) := by
  simp only [UserController.sendUpdate]
  cases hn : (body.get "name").truthy <;> cases he : (body.get "email").truthy
  · right
    have hp : sparsePayload body = ⟨[]⟩ := by simp [sparsePayload, hn, he]
    simp only [Bool.false_eq_true, if_false, hp]
    refine ⟨?_, by simp, by simp⟩
    rcases User.update c n ⟨[]⟩ w with ⟨_ | _, w'⟩ <;> rfl
  · simp only [Bool.false_eq_true, if_false, if_true]
    cases ht : (body.get "email").callTrim with
    | error e => left; exact ⟨e, rfl⟩
    | ok s =>
      obtain ⟨hstr, hs⟩ := callTrim_ok _ _ ht
      right
      have hp : (⟨[]⟩ : JsObject).set "email" (.str (toLowerCase s)) = sparsePayload body := by
        simp [sparsePayload, hn, he, hs, JsObject.set]
      simp only [Except.map, hp]
      refine ⟨?_, by simp, fun _ => by rw [hstr]; rfl⟩
      rcases User.update c n (sparsePayload body) w with ⟨_ | _, w'⟩ <;> rfl
  · simp only [Bool.false_eq_true, if_false, if_true]
    cases ht : (body.get "name").callTrim with
    | error e => left; exact ⟨e, rfl⟩
    | ok s =>
      obtain ⟨hstr, hs⟩ := callTrim_ok _ _ ht
      right
      have hp : (⟨[]⟩ : JsObject).set "name" (.str s) = sparsePayload body := by
        simp [sparsePayload, hn, he, hs, JsObject.set]
      simp only [Except.map, hp]
      refine ⟨?_, fun _ => by rw [hstr]; rfl, by simp⟩
      rcases User.update c n (sparsePayload body) w with ⟨_ | _, w'⟩ <;> rfl
  · simp only [if_true]
    cases ht : (body.get "name").callTrim with
    | error e => left; exact ⟨e, rfl⟩
    | ok s =>
      obtain ⟨hstr, hs⟩ := callTrim_ok _ _ ht
      simp only [Except.map]
      cases ht' : (body.get "email").callTrim with
      | error e => left; exact ⟨e, rfl⟩
      | ok s' =>
        obtain ⟨hstr', hs'⟩ := callTrim_ok _ _ ht'
        right
        have hp : ((⟨[]⟩ : JsObject).set "name" (.str s)).set "email" (.str (toLowerCase s'))
            = sparsePayload body := by
          have hkey : (("name" : String) != "email") = true := by decide
          simp [sparsePayload, hn, he, hs, hs', JsObject.set, List.filter, hkey]
        simp only [hp]
        refine ⟨?_, fun _ => by rw [hstr]; rfl, fun _ => by rw [hstr']; rfl⟩
        rcases User.update c n (sparsePayload body) w with ⟨_ | _, w'⟩ <;> rfl

/-- The table after `User.update` over the in-memory store: the payload applied to
the rows with this id. -/
theorem update_mem_rows (n : Int) (p : JsObject) (w : World Db) :
    (User.update memClient n p w).2.db.rows =
      w.db.rows.map (fun row => if row.id == n then applyFields p row else row) := by
  simp only [User.update, memClient]
  cases single (List.filter (fun row => row.id == n)
    (List.map (fun row => if (row.id == n) = true then applyFields p row else row) w.db.rows))
    <;> rfl

/-- The table after `updateUser` over the in-memory store: as before, or the sparse
payload applied to the one row with the parsed id, after the merged record
passed validation when a name or an email was supplied. -/
theorem updateUser_mem_rows (req : Request) (w : World Db) :
    (UserController.updateUser memClient req w).2.db.rows = w.db.rows ∨
    ∃ (n : Int) (existingUser : User),
      w.db.rows.filter (fun row => row.id == n) = [existingUser] ∧
      (((req.body.get "name").truthy || (req.body.get "email").truthy) = true →
        (User.validate
          { name := (req.body.get "name").or existingUser.name,
            email := (req.body.get "email").or existingUser.email }).isValid = true) ∧
      (UserController.updateUser memClient req w).2.db.rows =
        w.db.rows.map
          (fun row => if row.id == n then applyFields (sparsePayload req.body) row else row) := by
  simp only [UserController.updateUser]
  split
  · left; rfl
  · cases hp : parseInt req.params.id with
    | none => left; rfl
    | some n =>
      simp only []
      rcases findById_mem n w with ⟨existingUser, hrow, hf⟩ | hf
      · simp only [hf]
        split
        · left; rfl
        · rename_i hval
          have hvalid : ((req.body.get "name").truthy || (req.body.get "email").truthy) = true →
              (User.validate
                { name := (req.body.get "name").or existingUser.name,
                  email := (req.body.get "email").or existingUser.email }).isValid = true := by
            intro ht
            cases hv : (User.validate
                { name := (req.body.get "name").or existingUser.name,
                  email := (req.body.get "email").or existingUser.email }).isValid with
            | true => rfl
            | false => rw [ht, hv] at hval; simp at hval
          have hsend : ∀ w₁ : World Db, w₁.db = w.db →
              (UserController.sendUpdate memClient n req.body w₁).2.db.rows = w.db.rows ∨
              (UserController.sendUpdate memClient n req.body w₁).2.db.rows =
                w.db.rows.map (fun row =>
                  if row.id == n then applyFields (sparsePayload req.body) row else row) := by
            intro w₁ hw₁
            rcases sendUpdate_cases memClient n req.body w₁ with ⟨e, he⟩ | ⟨hs, -, -⟩
            · left; rw [he, hw₁]
            · right; rw [hs, update_mem_rows, hw₁]
          split
          · rcases findByEmail_mem (req.body.get "email")
              { db := w.db, calls := w.calls ++ [.findById n] } with ⟨other, -, hfe⟩ | hfe
            · left; simp only [hfe]
            · simp only [hfe]
              exact (hsend { db := w.db,
                             calls := w.calls ++ [.findById n] ++
                               [.findByEmail (req.body.get "email")] } rfl).imp id
                (fun h => ⟨n, existingUser, hrow, hvalid, h⟩)
          · exact (hsend { db := w.db, calls := w.calls ++ [.findById n] } rfl).imp id
              (fun h => ⟨n, existingUser, hrow, hvalid, h⟩)
      · left; simp only [hf]

/-- The table after `deleteUser` over the in-memory store holds only rows it held
before. -/
theorem deleteUser_mem_rows (req : Request) (w : World Db) :
    ∀ u ∈ (UserController.deleteUser memClient req w).2.db.rows, u ∈ w.db.rows := by
  simp only [UserController.deleteUser]
  split
  · intro u hu; exact hu
  · cases hp : parseInt req.params.id with
    | none => intro u hu; exact hu
    | some n =>
      simp only []
      rcases findById_mem n w with ⟨existingUser, -, hf⟩ | hf
      · simp only [hf]
        simp only [User.delete, memClient]
        intro u hu
        exact (List.mem_filter.1 hu).1
      · simp only [hf]
        intro u hu; exact hu

/-- The sparse payload of a request whose merged record passed validation, applied
to a well-formed row, gives a well-formed row. -/
theorem wellFormed_applyFields (body : JsObject) (existingUser : User)
    (hwf : WellFormedUser existingUser)
    (hvalid : ((body.get "name").truthy || (body.get "email").truthy) = true →
      (User.validate
        { name := (body.get "name").or existingUser.name,
          email := (body.get "email").or existingUser.email }).isValid = true) :
    WellFormedUser (applyFields (sparsePayload body) existingUser) := by
  obtain ⟨name₀, email₀, hn₀, he₀, hne, htrim, hlow, hpat⟩ := hwf
  have hkey : (("email" : String) == "name") = false := by decide
  cases hn : (body.get "name").truthy <;> cases he : (body.get "email").truthy
  · have hp : applyFields (sparsePayload body) existingUser = existingUser := by
      simp [applyFields, sparsePayload, hn, he]
    rw [hp]
    exact ⟨name₀, email₀, hn₀, he₀, hne, htrim, hlow, hpat⟩
  · have hv := rules_of_isValid _ (hvalid (by simp [he]))
    simp only [or_of_truthy _ _ he] at hv
    obtain ⟨h₁, h₂⟩ := written_email _ hv.2
    refine ⟨name₀, toLowerCase (trim (body.get "email").asString), ?_, ?_, hne, htrim, h₁, h₂⟩
    · simp [applyFields, sparsePayload, hn, he, List.lookup, hkey, hn₀]
    · simp [applyFields, sparsePayload, hn, he, List.lookup]
  · have hv := rules_of_isValid _ (hvalid (by simp [hn]))
    simp only [or_of_truthy _ _ hn] at hv
    obtain ⟨h₁, h₂⟩ := written_name _ hv.1
    refine ⟨trim (body.get "name").asString, email₀, ?_, ?_, h₁, h₂, hlow, hpat⟩
    · simp [applyFields, sparsePayload, hn, he, List.lookup]
    · simp [applyFields, sparsePayload, hn, he, List.lookup, hkey, he₀]
  · have hv := rules_of_isValid _ (hvalid (by simp [hn]))
    simp only [or_of_truthy _ _ hn, or_of_truthy _ _ he] at hv
    obtain ⟨h₁, h₂⟩ := written_name _ hv.1
    obtain ⟨h₃, h₄⟩ := written_email _ hv.2
    refine ⟨trim (body.get "name").asString, toLowerCase (trim (body.get "email").asString),
      ?_, ?_, h₁, h₂, h₃, h₄⟩
    · simp [applyFields, sparsePayload, hn, he, List.lookup]
    · simp [applyFields, sparsePayload, hn, he, List.lookup, hkey]

/-- One `createUser` request over the in-memory store keeps every row well-formed. -/
theorem createUser_wellFormed (req : Request) (w : World Db)
    (h : ∀ u ∈ w.db.rows, WellFormedUser u) :
    ∀ u ∈ (UserController.createUser memClient req w).2.db.rows, WellFormedUser u := by
  rcases createUser_mem_rows req w with hr | ⟨hv, hr⟩
  · rw [hr]; exact h
  · rw [hr]
    intro u hu
    rcases List.mem_append.1 hu with hu | hu
    · exact h u hu
    · rw [List.mem_singleton] at hu
      subst hu
      obtain ⟨hn, he⟩ := rules_of_isValid _ hv
      obtain ⟨h₁, h₂⟩ := written_name _ hn
      obtain ⟨h₃, h₄⟩ := written_email _ he
      exact ⟨_, _, rfl, rfl, h₁, h₂, h₃, h₄⟩

/-- One `updateUser` request over the in-memory store keeps every row well-formed. -/
theorem updateUser_wellFormed (req : Request) (w : World Db)
    (h : ∀ u ∈ w.db.rows, WellFormedUser u) :
    ∀ u ∈ (UserController.updateUser memClient req w).2.db.rows, WellFormedUser u := by
  rcases updateUser_mem_rows req w with hr | ⟨n, existingUser, hrow, hvalid, hr⟩
  · rw [hr]; exact h
  · rw [hr]
    intro u hu
    obtain ⟨row, hrin, rfl⟩ := List.mem_map.1 hu
    by_cases hid : (row.id == n) = true
    · have hmem : row ∈ w.db.rows.filter (fun row => row.id == n) :=
        List.mem_filter.2 ⟨hrin, hid⟩
      rw [hrow, List.mem_singleton] at hmem
      subst hmem
      rw [if_pos hid]
      exact wellFormed_applyFields req.body row (h row hrin) hvalid
    · rw [if_neg hid]
      exact h row hrin

/-- Any one write request over the in-memory store keeps every row well-formed. -/
theorem handle_wellFormed (op : Op) (w : World Db) (h : ∀ u ∈ w.db.rows, WellFormedUser u) :
    ∀ u ∈ (op.handle w).2.db.rows, WellFormedUser u := by
  cases op with
  | createUser req => exact createUser_wellFormed req w h
  | updateUser req => exact updateUser_wellFormed req w h
  | deleteUser req => exact fun u hu => h u (deleteUser_mem_rows req w u hu)

/-- Any sequence of write requests over the in-memory store keeps every row
well-formed. -/
theorem runAll_wellFormed (ops : List Op) :
    ∀ w : World Db, (∀ u ∈ w.db.rows, WellFormedUser u) →
      ∀ u ∈ (runAll ops w).db.rows, WellFormedUser u := by
  induction ops with
  | nil => intro w h; exact h
  | cons op ops ih => intro w h; exact ih _ (handle_wellFormed op w h)

/-- C11: over the in-memory store, if every stored user has a name that is a non-empty
string equal to its own trim and an email that is lowercase and matches the
validation pattern, then after any `createUser` or `updateUser` request, and after
any sequence of create, update and delete requests, every row of the table, the
written record among them, again has such a name and such an email and is
accepted by `User.validate`; and for every record that `User.validate` accepts,
trimming is a no-op on the email, and the record of the trimmed name and the
trimmed, lowercased email is accepted as well. -/
theorem wellFormed_preserved (req : Request) (w : World Db)
    (h : ∀ u ∈ w.db.rows, WellFormedUser u) :
    (∀ u ∈ (UserController.createUser memClient req w).2.db.rows,
      WellFormedUser u ∧ (User.validate { name := u.name, email := u.email }).isValid = true) ∧
    (∀ u ∈ (UserController.updateUser memClient req w).2.db.rows,
      WellFormedUser u ∧ (User.validate { name := u.name, email := u.email }).isValid = true) ∧
    (∀ ops : List Op, ∀ u ∈ (runAll ops w).db.rows,
      WellFormedUser u ∧ (User.validate { name := u.name, email := u.email }).isValid = true) ∧
    (∀ name email : String,
      (User.validate { name := .str name, email := .str email }).isValid = true →
        trim email = email ∧
        toLowerCase (toLowerCase (trim email)) = toLowerCase (trim email) ∧
        (User.validate { name := .str (trim name),
                         email := .str (toLowerCase (trim email)) }).isValid = true) := by
  refine ⟨?_, ?_, ?_, ?_⟩
  · intro u hu
    have hwf := createUser_wellFormed req w h u hu
    exact ⟨hwf, (wellFormed_isValid u hwf).2.2⟩
  · intro u hu
    have hwf := updateUser_wellFormed req w h u hu
    exact ⟨hwf, (wellFormed_isValid u hwf).2.2⟩
  · intro ops u hu
    have hwf := runAll_wellFormed ops w h u hu
    exact ⟨hwf, (wellFormed_isValid u hwf).2.2⟩
  · intro name email hv
    obtain ⟨hn, he⟩ := rules_of_isValid _ hv
    obtain ⟨s, hs, hpat⟩ := he
    simp only [JsVal.str.injEq] at hs
    subst hs
    obtain ⟨h₁, -⟩ := written_name _ hn
    obtain ⟨h₃, h₄⟩ := written_email (.str email) ⟨email, rfl, hpat⟩
    refine ⟨trim_of_emailPattern email hpat, h₃, isValid_of_rules _ ?_ ?_⟩
    · exact ⟨trim name, rfl, by rw [trim_idem]; exact h₁⟩
    · exact ⟨_, rfl, h₄⟩

/-- The store holding Ann is well-formed. -/
theorem annDb_wellFormed : ∀ u ∈ annDb.rows, WellFormedUser u := by
  intro u hu
  simp only [annDb, List.mem_singleton] at hu
  subst hu
  exact ⟨"Ann", "ann@x.com", rfl, rfl, by decide, by decide, by decide,
    (emailRegex_matches_iff _).1 (by decide)⟩

/-- C11 (witness): on the store holding Ann, `POST /users` with the name ` Bob ` and
the email `BÖB@X.com` writes the row of `Bob` with `böb@x.com`, and `PUT /users/1`
with the name ` Anna ` and the email `ANNA@X.com` writes `Anna` with `anna@x.com`;
in both tables every row is well-formed and accepted by `User.validate`. -/
theorem wellFormed_preserved_witness :
    (∀ u ∈ annDb.rows, WellFormedUser u) ∧
    (UserController.createUser memClient
        { body := ⟨[("name", .str " Bob "), ("email", .str "BÖB@X.com")]⟩ }
        ⟨annDb, []⟩).2.db.rows =
      [{ id := 1, name := .str "Ann", email := .str "ann@x.com", created_at := 0 },
       { id := 2, name := .str "Bob", email := .str "böb@x.com", created_at := 1 }] ∧
    (∀ u ∈ (UserController.createUser memClient
        { body := ⟨[("name", .str " Bob "), ("email", .str "BÖB@X.com")]⟩ }
        ⟨annDb, []⟩).2.db.rows,
      WellFormedUser u ∧ (User.validate { name := u.name, email := u.email }).isValid = true) ∧
    (UserController.updateUser memClient
        { params := { id := "1" },
          body := ⟨[("name", .str " Anna "), ("email", .str "ANNA@X.com")]⟩ }
        ⟨annDb, []⟩).2.db.rows =
      [{ id := 1, name := .str "Anna", email := .str "anna@x.com", created_at := 0 }] ∧
    (∀ u ∈ (UserController.updateUser memClient
        { params := { id := "1" },
          body := ⟨[("name", .str " Anna "), ("email", .str "ANNA@X.com")]⟩ }
        ⟨annDb, []⟩).2.db.rows,
      WellFormedUser u ∧ (User.validate { name := u.name, email := u.email }).isValid = true) :=
  ⟨annDb_wellFormed, by decide,
   (wellFormed_preserved
      { body := ⟨[("name", .str " Bob "), ("email", .str "BÖB@X.com")]⟩ } ⟨annDb, []⟩
      annDb_wellFormed).1,
   by decide,
   (wellFormed_preserved
      { params := { id := "1" },
        body := ⟨[("name", .str " Anna "), ("email", .str "ANNA@X.com")]⟩ } ⟨annDb, []⟩
      annDb_wellFormed).2.1⟩

end UserApi
